import Mathlib

/-!
HackTvWindows: the PAL-B demodulation pipeline and its collaborators

A verification development for the receive path of HackTvWindows
(`HackTvGui/lowpassfilter.h`, `HackTvGui/palbdemodulator.h`).

The two headers declare the classes `LowPassFilter` and `PALBDemodulator`; the
bodies of their member functions live in `lowpassfilter.cpp` and
`palbdemodulator.cpp`, which are not among the repository files at hand.
What the headers fix (constants, the fields of `DemodulatedFrame`, signatures)
is embedded from the headers.  Every member function whose body is absent is
modelled from the design document, and says so in its doc comment.

Sample values are exact numbers: `ℚ` where the stage only adds, multiplies and
compares, `ℝ`/`ℂ` where it needs `sin`, `cos`, `sqrt`, `exp` or `atan2`.
-/

namespace HackTv

/-! ## Constants of `PALBDemodulator` (palbdemodulator.h, lines 25-33) -/

/-- Video carrier offset, `VIDEO_CARRIER = 5.5e6` (Hz). -/
def VIDEO_CARRIER : ℚ := 5500000

/-- Audio carrier offset, `AUDIO_CARRIER = 5.74e6` (Hz). -/
def AUDIO_CARRIER : ℚ := 5740000

/-- Colour subcarrier, `COLOR_SUBCARRIER = 4.43361875e6` (Hz). -/
def COLOR_SUBCARRIER : ℚ := 443361875 / 100

/-- Lines of one frame, `LINES_PER_FRAME = 625`. -/
def LINES_PER_FRAME : Nat := 625

/-- Lines that carry picture, `VISIBLE_LINES = 576`. -/
def VISIBLE_LINES : Nat := 576

/-- Pixels of one picture line, `PIXELS_PER_LINE = 720`. -/
def PIXELS_PER_LINE : Nat := 720

/-- Duration of one scan line, `LINE_DURATION = 64e-6` (s). -/
def LINE_DURATION : ℚ := 64 / 1000000

/-- Duration of one field, `FIELD_DURATION = 0.02` (s). -/
def FIELD_DURATION : ℚ := 2 / 100

/-! ## FIR filter designer (design document, 4.1) -/

/-- The failure the filter designer reports to its caller. -/
inductive FilterError where
  | cutoffNotBelowNyquist
  deriving DecidableEq, Repr

/-- Modelled from the spec: the body of `LowPassFilter::designFilter` is absent.
The tap count: the length estimated from the transition width, made odd, and
set to 3 when the estimate is degenerate (at most one tap). -/
def tapCount (estimate : Nat) : Nat :=
  if estimate ≤ 1 then 3
  else if estimate % 2 = 0 then estimate + 1
  else estimate

/-- Modelled from the spec: the body of `LowPassFilter::designFilter` is absent.
The ideal low-pass (sinc) response at offset `n` from the centre tap, for the
normalised cutoff `cutoffFreq / sampleRate`. -/
noncomputable def idealSinc (sampleRate cutoffFreq : ℚ) (n : Int) : ℝ :=
  if n = 0 then 2 * (cutoffFreq : ℝ) / (sampleRate : ℝ)
  else Real.sin (2 * Real.pi * ((cutoffFreq : ℝ) / (sampleRate : ℝ)) * (n : ℝ))
        / (Real.pi * (n : ℝ))

/-- Modelled from the spec: the body of `LowPassFilter::designFilter` is absent.
The Hamming window weight of tap `i` out of `numTaps`. -/
noncomputable def hammingWindow (numTaps i : Nat) : ℝ :=
  0.54 - 0.46 * Real.cos (2 * Real.pi * (i : ℝ) / ((numTaps : ℝ) - 1))

/-- Modelled from the spec: the body of `LowPassFilter::designFilter` is absent.
The windowed-sinc taps before normalisation: the ideal response truncated to
`numTaps` taps around the centre and weighted by the Hamming window. -/
noncomputable def windowedSinc (sampleRate cutoffFreq : ℚ) (numTaps : Nat) : List ℝ :=
  (List.range numTaps).map fun (i : Nat) =>
    idealSinc sampleRate cutoffFreq ((i : Int) - (((numTaps - 1) / 2 : Nat) : Int))
      * hammingWindow numTaps i

/-- Modelled from the spec: the body of `LowPassFilter::designFilter` is absent.
Normalisation of a tap set by its DC gain (the sum of the taps). -/
noncomputable def normalizeTaps (raw : List ℝ) : List ℝ :=
  raw.map fun t => t / raw.sum

/-- Modelled from the spec: the body of `LowPassFilter::designFilter` is absent
(lowpassfilter.h declares it only).  A cutoff at or above the Nyquist frequency
`sampleRate / 2` is reported as a configuration error; otherwise the result is
the normalised Hamming-windowed sinc of `tapCount` taps.  The rule that derives
a length from the transition width is not given by the design document and is
the parameter `estimateTaps`. -/
noncomputable def designFilter (estimateTaps : ℚ → ℚ → Nat)
    (sampleRate cutoffFreq transitionWidth : ℚ) : Except FilterError (List ℝ) :=
  if sampleRate / 2 ≤ cutoffFreq then
    Except.error FilterError.cutoffNotBelowNyquist
  else
    Except.ok (normalizeTaps
      (windowedSinc sampleRate cutoffFreq (tapCount (estimateTaps sampleRate transitionWidth))))

/-- One complex baseband sample `std::complex<float>`: in-phase and quadrature part. -/
abbrev IQ := ℚ × ℚ

/-- Modelled from the spec: the body of `LowPassFilter::apply` is absent.
The boundary loss of a filter of `numTaps` taps: its group delay. -/
def groupDelay (numTaps : Nat) : Nat := (numTaps - 1) / 2

/-- Modelled from the spec: the body of `LowPassFilter::apply` is absent.
The input sample at a signed index; an index before the start of the buffer
reads as zero. -/
def sampleAt (input : List IQ) (i : Int) : IQ :=
  if i < 0 then 0 else input.getD i.toNat 0

/-- Modelled from the spec: the body of `LowPassFilter::apply` is absent.
The convolution sum `taps[0] * x[n] + taps[1] * x[n-1] + ...`. -/
def convolveAt (input : List IQ) : Int → List ℚ → IQ
  | _, [] => 0
  | n, t :: ts => t • sampleAt input n + convolveAt input (n - 1) ts

/-- Modelled from the spec: the body of `LowPassFilter::apply` is absent.
The number of output samples: the input length divided by the decimation,
rounded up, less the boundary loss. -/
def outputLength (numTaps decimation inputLength : Nat) : Nat :=
  (inputLength + decimation - 1) / decimation - groupDelay numTaps

/-- The state of a `LowPassFilter` (lowpassfilter.h, lines 13-14): the taps and
the decimation factor. -/
structure LowPassFilter where
  taps : List ℚ
  decimation : Nat
  deriving DecidableEq, Repr

/-- Modelled from the spec: the body of `LowPassFilter::apply` is absent
(lowpassfilter.h declares it only).  The convolution of the input with the taps
is evaluated at the retained indices `0, decimation, 2 * decimation, ...` only. -/
def LowPassFilter.apply (f : LowPassFilter) (input : List IQ) : List IQ :=
  (List.range (outputLength f.taps.length f.decimation input.length)).map fun (k : Nat) =>
    convolveAt input ((k * f.decimation : Nat) : Int) f.taps

/-! ## Frequency shifter (design document, 4.3) -/

/-- Modelled from the spec: the body of `PALBDemodulator::frequencyShift` is absent.
The phase advance per sample, `2 * pi * shiftFreq / sampleRate`. -/
noncomputable def phaseStep (sampleRate shiftFreq : ℚ) : ℝ :=
  2 * Real.pi * (shiftFreq : ℝ) / (sampleRate : ℝ)

/-- Modelled from the spec: the body of `PALBDemodulator::frequencyShift` is absent.
The rotation of a buffer by a phase accumulator: each sample is multiplied by
`exp (i * phase)` and the accumulator then advances by `step`; it is carried
from one sample to the next and never reset. -/
noncomputable def rotateFrom (step : ℝ) : ℝ → List ℂ → List ℂ
  | _, [] => []
  | phase, z :: zs =>
    z * Complex.exp (Complex.I * (phase : ℂ)) :: rotateFrom step (phase + step) zs

/-- Modelled from the spec: the body of `PALBDemodulator::frequencyShift` is
absent (palbdemodulator.h declares it only).  The accumulator starts at phase 0. -/
noncomputable def frequencyShift (sampleRate : ℚ) (signal : List ℂ) (shiftFreq : ℚ) : List ℂ :=
  rotateFrom (phaseStep sampleRate shiftFreq) 0 signal

/-! ## AM and FM demodulators (design document, 4.4) -/

/-- Modelled from the spec: the body of `PALBDemodulator::amDemodulate` is absent
(palbdemodulator.h declares it only).  Each output sample is the magnitude of
the input sample at the same index. -/
noncomputable def amDemodulate (signal : List ℂ) : List ℝ :=
  signal.map fun z => Complex.abs z

/-- Modelled from the spec: the body of `PALBDemodulator::fmDemodulate` is absent.
The phase difference between a sample and the one before it: the argument
(`atan2` of imaginary and real part) of the sample times the conjugate of its
predecessor. -/
noncomputable def phaseDifference (cur prev : ℂ) : ℝ :=
  Complex.arg (cur * (starRingEnd ℂ) prev)

/-- Modelled from the spec: the body of `PALBDemodulator::fmDemodulate` is absent
(palbdemodulator.h declares it only).  One output sample per pair of consecutive
input samples: the phase difference times the scale constant `scale`, which
the design document ties to the deviation and does not give. -/
noncomputable def fmDemodulate (scale : ℝ) (signal : List ℂ) : List ℝ :=
  List.zipWith (fun cur prev => scale * phaseDifference cur prev) signal.tail signal

/-! ## Vertical sync detector (design document, 4.5) -/

/-- Modelled from the spec: the body of `PALBDemodulator::detectVerticalSync` is
absent.  One pass over the samples: `pos` is the index of the next sample and
`run` the number of low samples right before it; the scan stops at the first
sample that makes the run longer than `minRun` and yields where that run began. -/
def scanSync {α : Type} (isLow : α → Bool) (minRun : Nat) : Nat → Nat → List α → Option Nat
  | _, _, [] => none
  | pos, run, s :: rest =>
    if isLow s then
      if minRun < run + 1 then some (pos - run)
      else scanSync isLow minRun (pos + 1) (run + 1) rest
    else scanSync isLow minRun (pos + 1) 0 rest

/-- The number of samples in one field, `sampleRate * FIELD_DURATION`, as a count. -/
def fieldSamples (sampleRate : ℚ) : Nat := Nat.floor (sampleRate * FIELD_DURATION)

/-- Modelled from the spec: the body of `PALBDemodulator::detectVerticalSync` is
absent (palbdemodulator.h declares `bool detectVerticalSync(signal, size_t& syncStart)`).
The detector scans the signal it is handed for the first low run longer than the
duration threshold.  The result is the returned flag with the value of
`syncStart` after the call: the offset where the run begins when one is found,
the value it had otherwise.  The test for a low sample and the duration
threshold are not given by the design document and are the parameters `isLow`
and `minRun`. -/
def detectVerticalSync {α : Type} (isLow : α → Bool) (minRun : Nat)
    (signal : List α) (syncStart : Nat) : Bool × Nat :=
  match scanSync isLow minRun 0 0 signal with
  | some start => (true, start)
  | none => (false, syncStart)

/-- Modelled from the spec: the body of `PALBDemodulator::demodulate` is absent.
The offset the frame is assembled from.  `demodulate` starts its offset at the
best-effort value 0 and hands the detector the first field duration of the
conditioned video signal ("no qualifying pulse found within one field
duration"); the offset is what the detector leaves in `syncStart`. -/
def frameOffset {α : Type} (isLow : α → Bool) (minRun : Nat) (sampleRate : ℚ)
    (signal : List α) : Nat :=
  (detectVerticalSync isLow minRun (signal.take (fieldSamples sampleRate)) 0).2

/-- Qt's `QRgb`: a pixel packed as `0xAARRGGBB` in an unsigned 32-bit integer. -/
abbrev QRgb := Nat

/-- Qt's `qRgb(r, g, b)`: full alpha and the low eight bits of each channel. -/
def qRgb (r g b : Nat) : QRgb :=
  255 * 16777216 + (r % 256) * 65536 + (g % 256) * 256 + b % 256

/-- Qt's `qRed`: bits 16 to 23. -/
def qRed (c : QRgb) : Nat := (c / 65536) % 256

/-- Qt's `qGreen`: bits 8 to 15. -/
def qGreen (c : QRgb) : Nat := (c / 256) % 256

/-- Qt's `qBlue`: bits 0 to 7. -/
def qBlue (c : QRgb) : Nat := c % 256

/-- The coefficients of a linear YUV to RGB transform, one row per channel. -/
structure YuvMatrix where
  ry : ℚ
  ru : ℚ
  rv : ℚ
  gy : ℚ
  gu : ℚ
  gv : ℚ
  biy : ℚ
  biu : ℚ
  biv : ℚ
  deriving DecidableEq, Repr

/-- The analogue PAL transform scaled to eight bits:
`R = Y + 1.14 V`, `G = Y - 0.395 U - 0.581 V`, `B = Y + 2.032 U`, times 255. -/
def palYuvMatrix : YuvMatrix where
  ry := 255
  ru := 0
  rv := 255 * 1140 / 1000
  gy := 255
  gu := -(255 * 395 / 1000)
  gv := -(255 * 581 / 1000)
  biy := 255
  biu := 255 * 2032 / 1000
  biv := 0

/-- Modelled from the spec: the body of `PALBDemodulator::yuv2rgb` is absent.
Saturation of a channel value to the eight-bit range. -/
def saturate (x : ℚ) : Nat :=
  if x < 0 then 0 else if 255 < x then 255 else Nat.floor x

/-- Modelled from the spec: the body of `PALBDemodulator::yuv2rgb` is absent
(palbdemodulator.h declares `QRgb yuv2rgb(float y, float u, float v)`).  Each
channel is the linear combination of `y`, `u`, `v` given by its row of the
matrix, saturated, and the three are packed with `qRgb`.  The design document
names the transform "standard" without its coefficients: they are `m`. -/
def yuv2rgb (m : YuvMatrix) (y u v : ℚ) : QRgb :=
  qRgb (saturate (m.ry * y + m.ru * u + m.rv * v))
       (saturate (m.gy * y + m.gu * u + m.gv * v))
       (saturate (m.biy * y + m.biu * u + m.biv * v))

/-! ## Frame assembler and `demodulate` (design document, 4.7) -/

/-- Qt's `QImage`, as far as the demodulator uses it: rows of pixels, the top
row first, each row from left to right. -/
abbrev QImage := List (List QRgb)

/-- Black, the pixel of a position no decoded line covers. -/
def blackPixel : QRgb := qRgb 0 0 0

/-- Modelled from the spec: the body of `PALBDemodulator::convertToImage` is
absent.  A grid of `rows` by `cols` pixels laid out from decoded lines: the
pixel at row `r`, column `c` is pixel `c` of line `r`; a position that no
decoded pixel covers is black. -/
def pixelGrid (rows cols : Nat) (lines : List (List QRgb)) : QImage :=
  (List.range rows).map fun (r : Nat) =>
    (List.range cols).map fun (c : Nat) => (lines.getD r []).getD c blackPixel

/-- Modelled from the spec: the body of `PALBDemodulator::convertToImage` is
absent (palbdemodulator.h declares `QImage convertToImage(videoSignal)`).  The
frame assembler: the lines decoded from the video signal are laid out as the
grid of `VISIBLE_LINES` rows and `PIXELS_PER_LINE` columns.  The cutting of the
signal into lines and their colour decoding is the parameter `decodeLines`. -/
def convertToImage (decodeLines : List ℚ → List (List QRgb)) (videoSignal : List ℚ) : QImage :=
  pixelGrid VISIBLE_LINES PIXELS_PER_LINE (decodeLines videoSignal)

/-- The frame `PALBDemodulator::demodulate` returns (palbdemodulator.h, lines
17-20): `struct DemodulatedFrame { QImage image; std::vector<float> audio; }`. -/
structure DemodulatedFrame where
  image : QImage
  audio : List ℚ
  deriving DecidableEq, Repr

/-- The state of a `PALBDemodulator` (palbdemodulator.h, line 35): the sample
rate given at construction. -/
structure PALBDemodulator where
  sampleRate : ℚ
  deriving DecidableEq, Repr

/-- The stages of the pipeline that this development does not look into: the
video branch up to the conditioned video signal, the test for a low sample and
the duration threshold of the sync detector, the decoding of the signal from
the field start on into picture lines, and the audio branch. -/
structure DecodeStages where
  videoSignal : ℚ → List IQ → List ℚ
  isLow : ℚ → Bool
  minRun : Nat
  decodeLines : List ℚ → List (List QRgb)
  audioSignal : ℚ → List IQ → List ℚ

/-- Modelled from the spec: the body of `PALBDemodulator::demodulate` is absent.
The conditioned video signal from the field start on: the samples before
`frameOffset` are passed over. -/
def PALBDemodulator.fieldSignal (stages : DecodeStages) (d : PALBDemodulator)
    (samples : List IQ) : List ℚ :=
  (stages.videoSignal d.sampleRate samples).drop
    (frameOffset stages.isLow stages.minRun d.sampleRate (stages.videoSignal d.sampleRate samples))

/-- Modelled from the spec: the body of `PALBDemodulator::demodulate` is absent
(palbdemodulator.h declares it only).  The video branch turns the buffer into
the conditioned video signal; the vertical sync detector gives the offset of
the field start, 0 when sync is not acquired; the frame assembler lays out the
lines decoded from that offset on as the image; the audio branch yields the
audio samples. -/
def PALBDemodulator.demodulate (stages : DecodeStages) (d : PALBDemodulator)
    (samples : List IQ) : DemodulatedFrame where
  image := convertToImage stages.decodeLines (d.fieldSignal stages samples)
  audio := stages.audioSignal d.sampleRate samples

/-! ## `HackRfDevice` (hackrfdevice.cpp) -/

/-- The result code `HACKRF_SUCCESS` of the vendor SDK. -/
def HACKRF_SUCCESS : Int := 0

/-- The vendor SDK as `HackRfDevice` uses it in its setters: each call takes the
device handle and a value and returns a result code;
`compute_baseband_filter_bw` is the SDK's bandwidth rule.  Nothing is assumed
of the result codes. -/
structure HackRfSdk where
  set_freq : Nat → Nat → Int
  set_sample_rate : Nat → Nat → Int
  set_lna_gain : Nat → Nat → Int
  set_vga_gain : Nat → Nat → Int
  set_txvga_gain : Nat → Nat → Int
  set_amp_enable : Nat → Nat → Int
  set_baseband_filter_bandwidth : Nat → Nat → Int
  set_antenna_enable : Nat → Nat → Int
  compute_baseband_filter_bw : Nat → Nat

/-- The members of `HackRfDevice` that the setters and getters touch, with the
lines written to `stderr` (the name of the failed SDK call and its code).
`h_device` is `none` for `nullptr`.  The integer members hold values of their
C++ types (`uint64_t`, `uint32_t`, `unsigned int`); no arithmetic is done on
them. -/
structure HackRfDevice where
  h_device : Option Nat
  m_frequency : Nat
  m_sampleRate : Nat
  m_lnaGain : Nat
  m_vgaGain : Nat
  m_txVgaGain : Nat
  m_ampEnable : Bool
  m_basebandFilterBandwidth : Nat
  m_antennaEnable : Bool
  stderr : List (String × Int)
  deriving DecidableEq, Repr

/-- The `if (r != HACKRF_SUCCESS) fprintf(stderr, ...)` that follows each SDK call. -/
def HackRfDevice.report (d : HackRfDevice) (call : String) (r : Int) : HackRfDevice :=
  if r ≠ HACKRF_SUCCESS then { d with stderr := d.stderr ++ [(call, r)] } else d

/-- `HackRfDevice::setFrequency` (hackrfdevice.cpp, lines 189-198). -/
def HackRfDevice.setFrequency (sdk : HackRfSdk) (d : HackRfDevice) (frequency_hz : Nat) :
    HackRfDevice :=
  match d.h_device with
  | some h =>
    HackRfDevice.report { d with m_frequency := frequency_hz } "hackrf_set_freq()"
      (sdk.set_freq h frequency_hz)
  | none => { d with m_frequency := frequency_hz }

/-- `HackRfDevice::setLnaGain` (hackrfdevice.cpp, lines 212-221). -/
def HackRfDevice.setLnaGain (sdk : HackRfSdk) (d : HackRfDevice) (lna_gain : Nat) :
    HackRfDevice :=
  match d.h_device with
  | some h =>
    HackRfDevice.report { d with m_lnaGain := lna_gain } "hackrf_set_lna_gain()"
      (sdk.set_lna_gain h lna_gain)
  | none => { d with m_lnaGain := lna_gain }

/-- `HackRfDevice::setVgaGain` (hackrfdevice.cpp, lines 223-232). -/
def HackRfDevice.setVgaGain (sdk : HackRfSdk) (d : HackRfDevice) (vga_gain : Nat) :
    HackRfDevice :=
  match d.h_device with
  | some h =>
    HackRfDevice.report { d with m_vgaGain := vga_gain } "hackrf_set_vga_gain()"
      (sdk.set_vga_gain h vga_gain)
  | none => { d with m_vgaGain := vga_gain }

/-- `HackRfDevice::setTxVgaGain` (hackrfdevice.cpp, lines 234-243). -/
def HackRfDevice.setTxVgaGain (sdk : HackRfSdk) (d : HackRfDevice) (tx_vga_gain : Nat) :
    HackRfDevice :=
  match d.h_device with
  | some h =>
    HackRfDevice.report { d with m_txVgaGain := tx_vga_gain } "hackrf_set_txvga_gain()"
      (sdk.set_txvga_gain h tx_vga_gain)
  | none => { d with m_txVgaGain := tx_vga_gain }

/-- `HackRfDevice::setAmpEnable` (hackrfdevice.cpp, lines 245-254). -/
def HackRfDevice.setAmpEnable (sdk : HackRfSdk) (d : HackRfDevice) (enable : Bool) :
    HackRfDevice :=
  match d.h_device with
  | some h =>
    HackRfDevice.report { d with m_ampEnable := enable } "hackrf_set_amp_enable()"
      (sdk.set_amp_enable h (if enable then 1 else 0))
  | none => { d with m_ampEnable := enable }

/-- `HackRfDevice::setBasebandFilterBandwidth` (hackrfdevice.cpp, lines 256-265). -/
def HackRfDevice.setBasebandFilterBandwidth (sdk : HackRfSdk) (d : HackRfDevice)
    (bandwidth : Nat) : HackRfDevice :=
  match d.h_device with
  | some h =>
    HackRfDevice.report { d with m_basebandFilterBandwidth := bandwidth }
      "hackrf_set_baseband_filter_bandwidth()" (sdk.set_baseband_filter_bandwidth h bandwidth)
  | none => { d with m_basebandFilterBandwidth := bandwidth }

/-- `HackRfDevice::setSampleRate` (hackrfdevice.cpp, lines 200-210): with a device
open it also sets the baseband filter bandwidth the SDK computes for the rate. -/
def HackRfDevice.setSampleRate (sdk : HackRfSdk) (d : HackRfDevice) (sample_rate : Nat) :
    HackRfDevice :=
  match d.h_device with
  | some h =>
    HackRfDevice.setBasebandFilterBandwidth sdk
      (HackRfDevice.report { d with m_sampleRate := sample_rate } "hackrf_set_sample_rate()"
        (sdk.set_sample_rate h sample_rate))
      (sdk.compute_baseband_filter_bw sample_rate)
  | none => { d with m_sampleRate := sample_rate }

/-- `HackRfDevice::setAntennaEnable` (hackrfdevice.cpp, lines 267-276). -/
def HackRfDevice.setAntennaEnable (sdk : HackRfSdk) (d : HackRfDevice) (enable : Bool) :
    HackRfDevice :=
  match d.h_device with
  | some h =>
    HackRfDevice.report { d with m_antennaEnable := enable } "hackrf_set_antenna_enable()"
      (sdk.set_antenna_enable h (if enable then 1 else 0))
  | none => { d with m_antennaEnable := enable }

/-- `HackRfDevice::getFrequency` (hackrfdevice.cpp, lines 279-282). -/
def HackRfDevice.getFrequency (d : HackRfDevice) : Nat := d.m_frequency

/-- `HackRfDevice::getSampleRate` (hackrfdevice.cpp, lines 284-287). -/
def HackRfDevice.getSampleRate (d : HackRfDevice) : Nat := d.m_sampleRate

/-- `HackRfDevice::getLnaGain` (hackrfdevice.cpp, lines 289-292). -/
def HackRfDevice.getLnaGain (d : HackRfDevice) : Nat := d.m_lnaGain

/-- `HackRfDevice::getVgaGain` (hackrfdevice.cpp, lines 294-297). -/
def HackRfDevice.getVgaGain (d : HackRfDevice) : Nat := d.m_vgaGain

/-- `HackRfDevice::getTxVgaGain` (hackrfdevice.cpp, lines 299-302). -/
def HackRfDevice.getTxVgaGain (d : HackRfDevice) : Nat := d.m_txVgaGain

/-- `HackRfDevice::getAmpEnable` (hackrfdevice.cpp, lines 304-307). -/
def HackRfDevice.getAmpEnable (d : HackRfDevice) : Bool := d.m_ampEnable

/-- `HackRfDevice::getBasebandFilterBandwidth` (hackrfdevice.cpp, lines 309-312). -/
def HackRfDevice.getBasebandFilterBandwidth (d : HackRfDevice) : Nat :=
  d.m_basebandFilterBandwidth

/-- `HackRfDevice::getAntennaEnable` (hackrfdevice.cpp, lines 314-317). -/
def HackRfDevice.getAntennaEnable (d : HackRfDevice) : Bool := d.m_antennaEnable

/-! ## `HackTvLib::start`: the mode configuration (hacktvlib.cpp, lines 710-953) -/

/-- The colour modes the code names (`hacktv/video.h` is not at hand); `other`
stands for every value it does not name. -/
inductive ColourMode where
  | VID_NONE
  | VID_PAL
  | VID_NTSC
  | VID_SECAM
  | other (n : Nat)
  deriving DecidableEq, Repr

/-- The video types the code names (`hacktv/video.h` is not at hand); `other`
stands for every value it does not name. -/
inductive VidType where
  | VID_RASTER_625
  | VID_RASTER_525
  | VID_MAC
  | other (n : Nat)
  deriving DecidableEq, Repr

/-- The members of `hacktv_t` (hacktvlib.h, lines 21-87) that the configuration
part of `start` reads.  A `char *` is `none` when it is `NULL`. -/
structure hacktv_t where
  level : ℚ
  deviation : ℚ
  gamma : ℚ
  interlace : Int
  teletext : Option String
  wss : Option String
  videocrypt : Option String
  videocrypt2 : Option String
  videocrypts : Option String
  syster : Int
  systeraudio : Int
  eurocrypt : Option String
  acp : Int
  vits : Int
  vitc : Int
  filter : Int
  nocolour : Int
  noaudio : Int
  nonicam : Int
  a2stereo : Int
  scramble_video : Int
  scramble_audio : Int
  chid : Int
  mac_audio_stereo : Int
  mac_audio_quality : Int
  mac_audio_protection : Int
  mac_audio_companded : Int
  sis : Option String
  swap_iq : Int
  offset : Int
  passthru : Option String
  invert_video : Int
  raw_bb_file : Option String
  raw_bb_blanking_level : Int
  raw_bb_white_level : Int
  secam_field_id : Int

/-- The members of `vid_config_t` that `start` reads or writes
(`hacktv/video.h` is not at hand; the names are those of the code). -/
structure vid_config_t where
  type : VidType
  lines : Int
  colour_mode : ColourMode
  fm_deviation : ℚ
  gamma : ℚ
  interlace : Int
  level : ℚ
  fm_mono_level : ℚ
  fm_left_level : ℚ
  fm_right_level : ℚ
  am_audio_level : ℚ
  nicam_level : ℚ
  dance_level : ℚ
  fm_mono_carrier : Int
  fm_left_carrier : Int
  fm_right_carrier : Int
  nicam_carrier : Int
  dance_carrier : Int
  am_mono_carrier : Int
  a2stereo : Int
  scramble_video : Int
  scramble_audio : Int
  teletext : Option String
  wss : Option String
  videocrypt : Option String
  videocrypt2 : Option String
  videocrypts : Option String
  syster : Int
  systeraudio : Int
  eurocrypt : Option String
  acp : Int
  vits : Int
  vitc : Int
  chid : Int
  mac_audio_stereo : Int
  mac_audio_quality : Int
  mac_audio_protection : Int
  mac_audio_companded : Int
  vfilter : Int
  sis : Option String
  swap_iq : Int
  offset : Int
  passthru : Option String
  invert_video : Int
  raw_bb_file : Option String
  raw_bb_blanking_level : Int
  raw_bb_white_level : Int
  secam_field_id : Int

/-- Lines 712-716: `--deviation` overrides the FM deviation. -/
def applyDeviation (s : hacktv_t) (c : vid_config_t) : vid_config_t :=
  if s.deviation > 0 then { c with fm_deviation := s.deviation } else c

/-- Lines 718-722: `--gamma` overrides the gamma value. -/
def applyGamma (s : hacktv_t) (c : vid_config_t) : vid_config_t :=
  if s.gamma > 0 then { c with gamma := s.gamma } else c

/-- Lines 724-727: `--interlace`. -/
def applyInterlace (s : hacktv_t) (c : vid_config_t) : vid_config_t :=
  if s.interlace ≠ 0 then { c with interlace := 1 } else c

/-- Lines 729-737: `--nocolour` turns a PAL, SECAM or NTSC mode into a mode
without colour. -/
def applyNoColour (s : hacktv_t) (c : vid_config_t) : vid_config_t :=
  if s.nocolour ≠ 0 then
    if c.colour_mode = ColourMode.VID_PAL ∨ c.colour_mode = ColourMode.VID_SECAM
        ∨ c.colour_mode = ColourMode.VID_NTSC then
      { c with colour_mode := ColourMode.VID_NONE }
    else c
  else c

/-- Lines 739-754: `--noaudio` disables all audio sub-carriers. -/
def applyNoAudio (s : hacktv_t) (c : vid_config_t) : vid_config_t :=
  if s.noaudio > 0 then
    { c with
      fm_mono_level := 0, fm_left_level := 0, fm_right_level := 0, am_audio_level := 0,
      nicam_level := 0, dance_level := 0, fm_mono_carrier := 0, fm_left_carrier := 0,
      fm_right_carrier := 0, nicam_carrier := 0, dance_carrier := 0, am_mono_carrier := 0 }
  else c

/-- Lines 756-761: `--nonicam` disables the NICAM sub-carrier. -/
def applyNoNicam (s : hacktv_t) (c : vid_config_t) : vid_config_t :=
  if s.nonicam > 0 then { c with nicam_level := 0, nicam_carrier := 0 } else c

/-- Lines 763-766: `--a2stereo`. -/
def applyA2Stereo (s : hacktv_t) (c : vid_config_t) : vid_config_t :=
  if s.a2stereo > 0 then { c with a2stereo := 1 } else c

/-- Lines 768-771: the scrambling options of the command line are copied and the
level is scaled. -/
def applyScrambleAndLevel (s : hacktv_t) (c : vid_config_t) : vid_config_t :=
  { c with
    scramble_video := s.scramble_video, scramble_audio := s.scramble_audio,
    level := c.level * s.level }

/-- Lines 712-771: the overrides that cannot fail, in the order of the code. -/
def applyOverrides (s : hacktv_t) (c : vid_config_t) : vid_config_t :=
  applyScrambleAndLevel s (applyA2Stereo s (applyNoNicam s (applyNoAudio s
    (applyNoColour s (applyInterlace s (applyGamma s (applyDeviation s c)))))))

/-- Lines 773-782: `--teletext`. -/
def checkTeletext (s : hacktv_t) (c : vid_config_t) : Except String vid_config_t :=
  if s.teletext.isSome then
    if c.lines ≠ 625 then
      Except.error "Teletext is only available with 625 line modes."
    else Except.ok { c with teletext := s.teletext }
  else Except.ok c

/-- Lines 784-793: `--wss`. -/
def checkWss (s : hacktv_t) (c : vid_config_t) : Except String vid_config_t :=
  if s.wss.isSome then
    if c.type ≠ VidType.VID_RASTER_625 then
      Except.error "WSS is only supported for 625 line raster modes."
    else Except.ok { c with wss := s.wss }
  else Except.ok c

/-- Lines 795-804: `--videocrypt`. -/
def checkVideocrypt (s : hacktv_t) (c : vid_config_t) : Except String vid_config_t :=
  if s.videocrypt.isSome then
    if c.lines ≠ 625 ∧ c.colour_mode ≠ ColourMode.VID_PAL then
      Except.error "Videocrypt I is only compatible with 625 line PAL modes."
    else Except.ok { c with videocrypt := s.videocrypt }
  else Except.ok c

/-- Lines 806-822: `--videocrypt2`. -/
def checkVideocrypt2 (s : hacktv_t) (c : vid_config_t) : Except String vid_config_t :=
  if s.videocrypt2.isSome then
    if c.lines ≠ 625 ∧ c.colour_mode ≠ ColourMode.VID_PAL then
      Except.error "Videocrypt II is only compatible with 625 line PAL modes."
    else if s.videocrypt.isSome
        ∧ ¬ (s.videocrypt = some "free" ∧ s.videocrypt2 = some "free") then
      Except.error "Videocrypt I and II cannot be used together except in free-access mode."
    else Except.ok { c with videocrypt2 := s.videocrypt2 }
  else Except.ok c

/-- Lines 824-839: `--videocrypts`. -/
def checkVideocrypts (s : hacktv_t) (c : vid_config_t) : Except String vid_config_t :=
  if s.videocrypts.isSome then
    if c.lines ≠ 625 ∧ c.colour_mode ≠ ColourMode.VID_PAL then
      Except.error "Videocrypt S is only compatible with 625 line PAL modes."
    else if s.videocrypt.isSome ∨ s.videocrypt2.isSome then
      Except.error "Using multiple scrambling modes is not supported."
    else Except.ok { c with videocrypts := s.videocrypts }
  else Except.ok c

/-- Lines 841-857: `--syster`. -/
def checkSyster (s : hacktv_t) (c : vid_config_t) : Except String vid_config_t :=
  if s.syster ≠ 0 then
    if c.lines ≠ 625 ∧ c.colour_mode ≠ ColourMode.VID_PAL then
      Except.error "Nagravision Syster is only compatible with 625 line PAL modes."
    else if c.videocrypt.isSome ∨ c.videocrypt2.isSome ∨ c.videocrypts.isSome then
      Except.error "Using multiple scrambling modes is not supported."
    else Except.ok { c with syster := 1, systeraudio := s.systeraudio }
  else Except.ok c

/-- Lines 859-874: `--eurocrypt`. -/
def checkEurocrypt (s : hacktv_t) (c : vid_config_t) : Except String vid_config_t :=
  if s.eurocrypt.isSome then
    if c.type ≠ VidType.VID_MAC then
      Except.error "Eurocrypt is only compatible with D/D2-MAC modes."
    else
      Except.ok { c with
        scramble_video := if c.scramble_video = 0 then 1 else c.scramble_video,
        eurocrypt := s.eurocrypt }
  else Except.ok c

/-- Lines 876-891: `--acp`. -/
def checkAcp (s : hacktv_t) (c : vid_config_t) : Except String vid_config_t :=
  if s.acp ≠ 0 then
    if c.lines ≠ 625 ∧ c.lines ≠ 525 then
      Except.error "Analogue Copy Protection is only compatible with 525 and 625 line modes."
    else if c.videocrypt.isSome ∨ c.videocrypt2.isSome ∨ c.videocrypts.isSome
        ∨ c.syster ≠ 0 then
      Except.error "Analogue Copy Protection cannot be used with video scrambling enabled."
    else Except.ok { c with acp := 1 }
  else Except.ok c

/-- Lines 893-903: `--vits`. -/
def checkVits (s : hacktv_t) (c : vid_config_t) : Except String vid_config_t :=
  if s.vits ≠ 0 then
    if c.type ≠ VidType.VID_RASTER_625 ∧ c.type ≠ VidType.VID_RASTER_525 then
      Except.error "VITS is only currently supported for 625 and 525 line raster modes."
    else Except.ok { c with vits := 1 }
  else Except.ok c

/-- Lines 905-915: `--vitc`. -/
def checkVitc (s : hacktv_t) (c : vid_config_t) : Except String vid_config_t :=
  if s.vitc ≠ 0 then
    if c.type ≠ VidType.VID_RASTER_625 ∧ c.type ≠ VidType.VID_RASTER_525 then
      Except.error "VITC is only currently supported for 625 and 525 line raster modes."
    else Except.ok { c with vitc := 1 }
  else Except.ok c

/-- Lines 917-933: the MAC audio settings and `--filter`; the channel id is cast
to `uint16_t`. -/
def applyMacAndFilter (s : hacktv_t) (c : vid_config_t) : vid_config_t :=
  let c :=
    if c.type = VidType.VID_MAC then
      { (if s.chid ≥ 0 then { c with chid := s.chid % 65536 } else c) with
        mac_audio_stereo := s.mac_audio_stereo, mac_audio_quality := s.mac_audio_quality,
        mac_audio_protection := s.mac_audio_protection,
        mac_audio_companded := s.mac_audio_companded }
    else c
  if s.filter ≠ 0 then { c with vfilter := 1 } else c

/-- Lines 935-944: `--sis`. -/
def checkSis (s : hacktv_t) (c : vid_config_t) : Except String vid_config_t :=
  if s.sis.isSome then
    if c.lines ≠ 625 then
      Except.error "SiS is only available with 625 line modes."
    else Except.ok { c with sis := s.sis }
  else Except.ok c

/-- Lines 946-953: the settings copied last. -/
def applyTail (s : hacktv_t) (c : vid_config_t) : vid_config_t :=
  { c with
    swap_iq := s.swap_iq, offset := s.offset, passthru := s.passthru,
    invert_video := s.invert_video, raw_bb_file := s.raw_bb_file,
    raw_bb_blanking_level := s.raw_bb_blanking_level,
    raw_bb_white_level := s.raw_bb_white_level, secam_field_id := s.secam_field_id }

/-- The scrambling checks of `start`, lines 795-891, in the order of the code. -/
def checkScrambling (s : hacktv_t) (c : vid_config_t) : Except String vid_config_t :=
  checkVideocrypt s c >>= checkVideocrypt2 s >>= checkVideocrypts s >>= checkSyster s
    >>= checkEurocrypt s >>= checkAcp s

/-- `HackTvLib::start`, lines 710-953: from the options `s` and the
configuration `conf` of the selected mode (the copy made by `memcpy`) to the
configuration handed to `vid_init`, or the message of the check that made
`start` return.  The messages are those of the code without the line feed. -/
def configure (s : hacktv_t) (conf : vid_config_t) : Except String vid_config_t :=
  checkTeletext s (applyOverrides s conf) >>= checkWss s >>= checkScrambling s
    >>= checkVits s >>= checkVitc s >>= (fun c => checkSis s (applyMacAndFilter s c))
    >>= (fun c => Except.ok (applyTail s c))

/-- The options after the constructor `HackTvLib::HackTvLib` (hacktvlib.cpp,
lines 194-238): all zero, with the defaults the constructor sets.  The MAC
audio defaults are named constants of `hacktv/video.h` and stand as 0 here. -/
def defaultOptions : hacktv_t where
  level := 1
  deviation := -1
  gamma := -1
  interlace := 0
  teletext := none
  wss := none
  videocrypt := none
  videocrypt2 := none
  videocrypts := none
  syster := 0
  systeraudio := 0
  eurocrypt := none
  acp := 0
  vits := 0
  vitc := 0
  filter := 0
  nocolour := 0
  noaudio := 0
  nonicam := 0
  a2stereo := 0
  scramble_video := 0
  scramble_audio := 0
  chid := -1
  mac_audio_stereo := 0
  mac_audio_quality := 0
  mac_audio_protection := 0
  mac_audio_companded := 0
  sis := none
  swap_iq := 0
  offset := 0
  passthru := none
  invert_video := 0
  raw_bb_file := none
  raw_bb_blanking_level := 0
  raw_bb_white_level := 32767
  secam_field_id := 0

/-- A mode configuration of the given type, line count and colour mode with
every other member zero: the table `vid_configs` is not at hand. -/
def plainMode (type : VidType) (lines : Int) (colour_mode : ColourMode) : vid_config_t where
  type := type
  lines := lines
  colour_mode := colour_mode
  fm_deviation := 0
  gamma := 0
  interlace := 0
  level := 1
  fm_mono_level := 0
  fm_left_level := 0
  fm_right_level := 0
  am_audio_level := 0
  nicam_level := 0
  dance_level := 0
  fm_mono_carrier := 0
  fm_left_carrier := 0
  fm_right_carrier := 0
  nicam_carrier := 0
  dance_carrier := 0
  am_mono_carrier := 0
  a2stereo := 0
  scramble_video := 0
  scramble_audio := 0
  teletext := none
  wss := none
  videocrypt := none
  videocrypt2 := none
  videocrypts := none
  syster := 0
  systeraudio := 0
  eurocrypt := none
  acp := 0
  vits := 0
  vitc := 0
  chid := 0
  mac_audio_stereo := 0
  mac_audio_quality := 0
  mac_audio_protection := 0
  mac_audio_companded := 0
  vfilter := 0
  sis := none
  swap_iq := 0
  offset := 0
  passthru := none
  invert_video := 0
  raw_bb_file := none
  raw_bb_blanking_level := 0
  raw_bb_white_level := 0
  secam_field_id := 0

/-- Two configurations agree on the members that the scrambling checks of
`start` read or write. -/
def SameScrambling (a b : vid_config_t) : Prop :=
  a.lines = b.lines ∧ a.colour_mode = b.colour_mode ∧ a.type = b.type
  ∧ a.videocrypt = b.videocrypt ∧ a.videocrypt2 = b.videocrypt2
  ∧ a.videocrypts = b.videocrypts ∧ a.syster = b.syster ∧ a.acp = b.acp
  ∧ a.scramble_video = b.scramble_video

/-! ## `HackTvLib::start`: the `-o` option (hacktvlib.cpp, lines 326-374) -/

/-- The terminator of a C string. -/
def NUL : Char := Char.ofNat 0

/-- The C string that starts at offset `p` of a buffer: the characters up to
the first terminator. -/
def cstring (buf : List Char) (p : Nat) : List Char :=
  (buf.drop p).takeWhile fun ch => ch ≠ NUL

/-- `strchr`: the offset of the first `ch` in the C string that starts the
buffer `buf`, counted from `i`; `none` is `NULL`. -/
def strchr (ch : Char) : List Char → Nat → Option Nat
  | [], _ => none
  | c :: cs, i => if c = NUL then none else if c = ch then some i else strchr ch cs (i + 1)

/-- What `case 'o'` leaves behind: the buffer of `optarg`, which the case writes
to, `s.output_type`, and `s.output`, a pointer into the buffer given as an
offset (`none` is `NULL`). -/
structure OutputOption where
  optarg : List Char
  output_type : String
  output : Option Nat
  deriving DecidableEq, Repr

/-- `case 'o'` of `HackTvLib::start` (hacktvlib.cpp, lines 326-374) on the
buffer `optarg` (`pre` is offset 0): the first colon is overwritten by a
terminator, the text before it is compared with the known types, and for an
unknown type the colon is put back. -/
def outputCase (optarg : List Char) : OutputOption :=
  let sub := strchr ':' optarg 0
  let buf := match sub with
    | some i => optarg.set i NUL
    | none => optarg
  let sub := sub.map fun i => i + 1
  if cstring buf 0 = "file".toList then ⟨buf, "file", sub⟩
  else if cstring buf 0 = "hackrf".toList then ⟨buf, "hackrf", sub⟩
  else if cstring buf 0 = "soapysdr".toList then ⟨buf, "soapysdr", sub⟩
  else if cstring buf 0 = "fl2k".toList then ⟨buf, "fl2k", sub⟩
  else
    match sub with
    | some j => ⟨buf.set (j - 1) ':', "file", some 0⟩
    | none => ⟨buf, "file", some 0⟩

/-- The string `s.output` points to after `case 'o'`; `none` when it is `NULL`. -/
def OutputOption.outputString (r : OutputOption) : Option (List Char) :=
  r.output.map fun p => cstring r.optarg p

/-- The output types `case 'o'` knows. -/
def knownOutputTypes : List String := ["file", "hackrf", "soapysdr", "fl2k"]

/-! ## `_fputs_json` and `_list_modes` (hacktvlib.cpp, lines 40-100) -/

/-- The `switch` of `_fputs_json` (hacktvlib.cpp, lines 49-59): the escape
written for a character, `none` when the character is written as it is. -/
def jsonEscape (c : Char) : Option String :=
  if c = '"' then some "\\\""
  else if c = '\\' then some "\\\\"
  else if c = Char.ofNat 8 then some "\\b"
  else if c = Char.ofNat 12 then some "\\f"
  else if c = '\n' then some "\\n"
  else if c = '\r' then some "\\r"
  else if c = '\t' then some "\\t"
  else none

/-- `_fputs_json` (hacktvlib.cpp, lines 40-73): the text written to the stream
for the C string `str`, every write succeeding.  The count it returns, which
`_list_modes` does not use, is left out. -/
def _fputs_json : List Char → List Char
  | [] => []
  | c :: str =>
    (match jsonEscape c with
      | some s => s.toList
      | none => [c]) ++ _fputs_json str

/-- The states of a reader of the inside of a JSON string (RFC 8259, section
7): between characters, after a backslash, inside the four hexadecimal digits
of a `\u` escape, or failed. -/
inductive JsonStringState where
  | plain
  | escape
  | hex (left : Nat)
  | bad
  deriving DecidableEq, Repr

/-- One character read inside a JSON string: an unescaped character must not be
a quotation mark, a backslash or a control character below U+0020. -/
def jsonStringStep : JsonStringState → Char → JsonStringState
  | JsonStringState.plain, c =>
    if c = '\\' then JsonStringState.escape
    else if c = '"' ∨ c.toNat < 32 then JsonStringState.bad
    else JsonStringState.plain
  | JsonStringState.escape, c =>
    if c = 'u' then JsonStringState.hex 4
    else if c = '"' ∨ c = '\\' ∨ c = '/' ∨ c = 'b' ∨ c = 'f' ∨ c = 'n' ∨ c = 'r' ∨ c = 't' then
      JsonStringState.plain
    else JsonStringState.bad
  | JsonStringState.hex left, c =>
    if c.isDigit ∨ ('a' ≤ c ∧ c ≤ 'f') ∨ ('A' ≤ c ∧ c ≤ 'F') then
      (if left ≤ 1 then JsonStringState.plain else JsonStringState.hex (left - 1))
    else JsonStringState.bad
  | JsonStringState.bad, _ => JsonStringState.bad

/-- The text is the inside of a JSON string: read from the start it ends
between characters without having failed. -/
def validJsonStringBody (body : List Char) : Bool :=
  decide (body.foldl jsonStringStep JsonStringState.plain = JsonStringState.plain)

/-! ## `HackTvLib::start`: the `--shuffle` pass (hacktvlib.cpp, lines 1079-1091) -/

/-- The loop `for(c = optind; c < argc - 1; c++)` of the `--shuffle` pass
(hacktvlib.cpp, lines 1084-1090) from the index `c` on, over the whole of `argv`
(`argc` entries).  `rand calls` is the value of the next call of `rand()`, a
non-negative `int`.  The result is `none` for a modulus of zero, for an index
outside `argv`, and when `fuel` runs out.  In the body `c < argc - 1`, so the
modulus `argc - c - (c == optind ? 1 : 0)` is the same number in `int` and in
natural-number arithmetic. -/
def shuffleLoop {α : Type} (rand : Nat → Nat) (optind argc : Nat) :
    Nat → Nat → Nat → List α → Option (List α)
  | 0, _, _, _ => none
  | fuel + 1, c, calls, argv =>
    if c < argc - 1 then
      if argc - c - (if c = optind then 1 else 0) = 0 then none
      else
        match argv[c]?, argv[c + rand calls % (argc - c - (if c = optind then 1 else 0))]? with
        | some pre, some other =>
          shuffleLoop rand optind argc fuel (c + 1) (calls + 1)
            ((argv.set c other).set
              (c + rand calls % (argc - c - (if c = optind then 1 else 0))) pre)
        | _, _ => none
    else some argv

/-- The `--shuffle` pass of `HackTvLib::start` (hacktvlib.cpp, lines 1079-1091)
on `argv`, whose inputs start at `optind`; `calls` is the number of calls of
`rand()` made before the pass. -/
def shufflePass {α : Type} (rand : Nat → Nat) (calls optind : Nat) (argv : List α) :
    Option (List α) :=
  shuffleLoop rand optind argv.length (argv.length + 1) optind calls argv

/-! ## `HackRfDevice::_rx_callback` (hackrfdevice.cpp, lines 161-175) -/

/-- The members of the SDK's `hackrf_transfer` that `_rx_callback` reads: the
buffer, a pointer given as its address, and `valid_length`, an `int`. -/
structure hackrf_transfer where
  buffer : Nat
  valid_length : Int
  deriving DecidableEq, Repr

/-- `HackRfDevice::_rx_callback` (hackrfdevice.cpp, lines 161-175).
`m_dataCallback` is the member of the device that `transfer->rx_ctx` points to,
`none` when no callback is set.  The result is the value returned and the calls
of the data callback made, each with the arguments of the call expression
`m_dataCallback(rf_data, len)`.  `%` is the remainder of C, which truncates. -/
def _rx_callback {κ : Type} (m_dataCallback : Option κ) (transfer : hackrf_transfer) :
    Int × List (κ × Nat × Int) :=
  if Int.tmod transfer.valid_length 2 ≠ 0 then (-1, [])
  else
    match m_dataCallback with
    | some callback => (0, [(callback, transfer.buffer, transfer.valid_length)])
    | none => (0, [])

/-! ## `removeZerosFromBeginning` (hackrfdevice.cpp, lines 4-10) -/

/-- The number of values of `uint32_t`. -/
def UINT32_SIZE : Nat := 4294967296

/-- The loop `while (i < string.length() && string[i] == '0') i++` of
`removeZerosFromBeginning` (hackrfdevice.cpp, lines 6-8) from the index `i` on:
the value of `i` when the loop ends, `none` when `fuel` runs out first.  `i` is
a `uint32_t`, so `i++` wraps at `UINT32_SIZE`; the length of the string is a
`size_t` and is taken to have more than 32 bits. -/
def removeZerosLoop (string : List Char) : Nat → Nat → Option Nat
  | 0, _ => none
  | fuel + 1, i =>
    if i < string.length ∧ string[i]? = some '0' then
      removeZerosLoop string fuel ((i + 1) % UINT32_SIZE)
    else some i

/-- `removeZerosFromBeginning` (hackrfdevice.cpp, lines 4-10):
`string.substr(i, string.length() - i)` for the `i` the loop ends with. -/
def removeZerosFromBeginning (fuel : Nat) (string : List Char) : Option (List Char) :=
  (removeZerosLoop string fuel 0).map fun i => (string.drop i).take (string.length - i)

/-- The number of characters `0` a string starts with. -/
def leadingZeros : List Char → Nat
  | [] => 0
  | c :: rest => if c = '0' then leadingZeros rest + 1 else 0

/-! # Theorems -/

/-! ## The filter designer -/

theorem designFilter_ok (estimateTaps : ℚ → ℚ → Nat) (sampleRate cutoffFreq transitionWidth : ℚ)
    (h : cutoffFreq < sampleRate / 2) :
    designFilter estimateTaps sampleRate cutoffFreq transitionWidth
      = Except.ok (normalizeTaps (windowedSinc sampleRate cutoffFreq
          (tapCount (estimateTaps sampleRate transitionWidth)))) := by
  unfold designFilter
  rw [if_neg (not_le.mpr h)]

/-- C9: the filter designer reports the configuration error exactly when the
cutoff is at or above the Nyquist frequency `sampleRate / 2`, in which case it
returns no tap set at all, and it succeeds with a tap set exactly when the
cutoff is below `sampleRate / 2`. -/
theorem designFilter_error_iff_cutoff_not_below_nyquist (estimateTaps : ℚ → ℚ → Nat)
    (sampleRate cutoffFreq transitionWidth : ℚ) :
    (designFilter estimateTaps sampleRate cutoffFreq transitionWidth
        = Except.error FilterError.cutoffNotBelowNyquist ↔ sampleRate / 2 ≤ cutoffFreq)
    ∧ ((∃ taps : List ℝ,
          designFilter estimateTaps sampleRate cutoffFreq transitionWidth = Except.ok taps)
        ↔ cutoffFreq < sampleRate / 2)
    ∧ (sampleRate / 2 ≤ cutoffFreq → ∀ taps : List ℝ,
          designFilter estimateTaps sampleRate cutoffFreq transitionWidth ≠ Except.ok taps) := by
  by_cases h : sampleRate / 2 ≤ cutoffFreq
  · have herr : designFilter estimateTaps sampleRate cutoffFreq transitionWidth
        = Except.error FilterError.cutoffNotBelowNyquist := by
      unfold designFilter
      rw [if_pos h]
    refine ⟨⟨fun _ => h, fun _ => herr⟩, ⟨?_, fun hlt => absurd h (not_le.mpr hlt)⟩, ?_⟩
    · rintro ⟨taps, htaps⟩
      rw [herr] at htaps
      exact Except.noConfusion htaps
    · intro _ taps htaps
      rw [herr] at htaps
      exact Except.noConfusion htaps
  · have hok := designFilter_ok estimateTaps sampleRate cutoffFreq transitionWidth (not_le.mp h)
    refine ⟨⟨?_, fun hle => absurd hle h⟩, ⟨fun _ => not_le.mp h, fun _ => ⟨_, hok⟩⟩,
      fun hle => absurd hle h⟩
    intro herr
    rw [hok] at herr
    exact Except.noConfusion herr

/-! ## The low-pass / decimation filter -/

theorem sampleAt_zeros_append (input : List IQ) (m : Nat) (i : Int) :
    sampleAt (List.replicate m 0 ++ input) (i + m) = sampleAt input i := by
  unfold sampleAt
  by_cases hi : i < 0
  · rw [if_pos hi]
    split_ifs with h
    · rfl
    · have hlt : (i + (m : Int)).toNat < m := by omega
      rw [List.getD_append _ _ _ _ (by simpa using hlt)]
      simp [List.getD_eq_getElem?_getD, hlt]
  · rw [if_neg hi, if_neg (by omega)]
    have : (i + (m : Int)).toNat = m + i.toNat := by omega
    rw [this, List.getD_append_right _ _ _ _ (by simp)]
    simp

theorem convolveAt_zeros_append (input : List IQ) (m : Nat) (taps : List ℚ) (n : Int) :
    convolveAt (List.replicate m 0 ++ input) (n + m) taps = convolveAt input n taps := by
  induction taps generalizing n with
  | nil => rfl
  | cons t ts ih =>
    simp only [convolveAt]
    rw [sampleAt_zeros_append, show n + (m : Int) - 1 = (n - 1) + m by ring, ih]

theorem ceilDiv_eq_ceil (len N : Nat) (hN : 0 < N) :
    (len + N - 1) / N = Nat.ceil ((len : ℚ) / (N : ℚ)) := by
  apply eq_of_forall_ge_iff
  intro m
  have hNq : (0 : ℚ) < (N : ℚ) := by exact_mod_cast hN
  rw [Nat.div_le_iff_le_mul_add_pred hN, Nat.ceil_le, div_le_iff₀ hNq]
  have hcast : ((len : ℚ) ≤ (m : ℚ) * (N : ℚ)) ↔ len ≤ m * N := by exact_mod_cast Iff.rfl
  rw [hcast, Nat.mul_comm m N]
  generalize N * m = p
  omega

theorem LowPassFilter_apply_length (f : LowPassFilter) (input : List IQ) :
    (f.apply input).length = outputLength f.taps.length f.decimation input.length := by
  simp [LowPassFilter.apply]

theorem LowPassFilter_apply_getElem (f : LowPassFilter) (input : List IQ) (k : Nat)
    (hk : k < (f.apply input).length) :
    (f.apply input)[k] = convolveAt input ((k * f.decimation : Nat) : Int) f.taps := by
  simp [LowPassFilter.apply]

theorem sampleAt_neg (input : List IQ) (i : Int) (hi : i < 0) : sampleAt input i = 0 := by
  simp [sampleAt, hi]

/-- C2: the output of the low-pass/decimation filter with decimation 1 has the
input length less the boundary loss `groupDelay` of the tap count; with
decimation `N` it has `ceil (input length / N)` less that loss; output `k` is
the convolution at input index `k * N`, where samples before the start of the
buffer count as zero (the result is the same as with explicit zeros in front). -/
theorem LowPassFilter_apply_length_and_zero_padding (taps : List ℚ) (N : Nat)
    (input : List IQ) (hN : 0 < N) :
    ((LowPassFilter.mk taps 1).apply input).length = input.length - groupDelay taps.length
    ∧ ((LowPassFilter.mk taps N).apply input).length
        = Nat.ceil ((input.length : ℚ) / (N : ℚ)) - groupDelay taps.length
    ∧ (∀ k : Nat, k < ((LowPassFilter.mk taps N).apply input).length →
        ((LowPassFilter.mk taps N).apply input).getD k 0
          = convolveAt input ((k * N : Nat) : Int) taps)
    ∧ (∀ i : Int, i < 0 → sampleAt input i = 0)
    ∧ (∀ (m : Nat) (n : Int),
        convolveAt (List.replicate m 0 ++ input) (n + m) taps = convolveAt input n taps) := by
  refine ⟨?_, ?_, ?_, ?_, ?_⟩
  · rw [LowPassFilter_apply_length]
    simp [outputLength]
  · rw [LowPassFilter_apply_length]
    simp only [outputLength]
    rw [ceilDiv_eq_ceil _ _ hN]
  · intro k hk
    rw [List.getD_eq_getElem _ _ hk, LowPassFilter_apply_getElem]
  · exact fun i hi => sampleAt_neg input i hi
  · exact fun m n => convolveAt_zeros_append input m taps n

/-- C2 (witness): three taps, decimation 2, five input samples. -/
theorem LowPassFilter_apply_length_and_zero_padding_witness :
    (0 < 2)
    ∧ ((LowPassFilter.mk [1/4, 1/2, 1/4] 2).apply [(1, 0), (2, 0), (3, 0), (4, 0), (5, 0)]).length
        = Nat.ceil (((5 : Nat) : ℚ) / ((2 : Nat) : ℚ)) - groupDelay 3 :=
  ⟨by decide,
   (LowPassFilter_apply_length_and_zero_padding [1/4, 1/2, 1/4] 2
      [(1, 0), (2, 0), (3, 0), (4, 0), (5, 0)] (by decide)).2.1⟩

/-! ## The frequency shifter -/

theorem rotateFrom_length (step : ℝ) (signal : List ℂ) (phase : ℝ) :
    (rotateFrom step phase signal).length = signal.length := by
  induction signal generalizing phase with
  | nil => rfl
  | cons z zs ih => simp [rotateFrom, ih]

theorem exp_phase_mul_exp_neg (phase : ℝ) :
    Complex.exp (Complex.I * (phase : ℂ)) * Complex.exp (Complex.I * ((-phase : ℝ) : ℂ)) = 1 := by
  rw [← Complex.exp_add]
  simp

theorem rotateFrom_inverse (step : ℝ) (signal : List ℂ) (phase : ℝ) :
    rotateFrom (-step) (-phase) (rotateFrom step phase signal) = signal := by
  induction signal generalizing phase with
  | nil => rfl
  | cons z zs ih =>
    simp only [rotateFrom]
    rw [mul_assoc, exp_phase_mul_exp_neg, mul_one,
      show -phase + -step = -(phase + step) by ring, ih]

theorem rotateFrom_getD (step : ℝ) (signal : List ℂ) (phase : ℝ) (n : Nat)
    (hn : n < signal.length) :
    (rotateFrom step phase signal).getD n 0
      = signal.getD n 0 * Complex.exp (Complex.I * ((phase + n * step : ℝ) : ℂ)) := by
  induction signal generalizing phase n with
  | nil => simp at hn
  | cons z zs ih =>
    cases n with
    | zero => simp [rotateFrom]
    | succ k =>
      have hk : k < zs.length := by simpa using hn
      simp only [rotateFrom, List.getD_cons_succ]
      rw [ih (phase + step) k hk]
      congr 3
      push_cast
      ring

theorem phaseStep_neg (sampleRate shiftFreq : ℚ) :
    phaseStep sampleRate (-shiftFreq) = -phaseStep sampleRate shiftFreq := by
  unfold phaseStep
  push_cast
  ring

theorem abs_exp_phase (phase : ℝ) : Complex.abs (Complex.exp (Complex.I * (phase : ℂ))) = 1 := by
  rw [mul_comm]
  exact Complex.abs_exp_ofReal_mul_I phase

/-- C3: shifting a signal by `+f` and then by `-f` gives back a signal of the
same length that equals the original sample for sample; sample `n` of a shifted
signal is the input sample times an exponential of magnitude 1 whose phase is
`n * (2 * pi * f / sampleRate)`, so both shifts start from phase 0 and advance
by the same amount per sample in opposite directions. -/
theorem frequencyShift_round_trip (sampleRate : ℚ) (signal : List ℂ) (f : ℚ) :
    (frequencyShift sampleRate (frequencyShift sampleRate signal f) (-f)).length = signal.length
    ∧ frequencyShift sampleRate (frequencyShift sampleRate signal f) (-f) = signal
    ∧ (∀ n : Nat, n < signal.length →
        (frequencyShift sampleRate signal f).getD n 0
            = signal.getD n 0
              * Complex.exp (Complex.I * ((n * (2 * Real.pi * (f : ℝ) / (sampleRate : ℝ)) : ℝ) : ℂ))
        ∧ Complex.abs (Complex.exp
            (Complex.I * ((n * (2 * Real.pi * (f : ℝ) / (sampleRate : ℝ)) : ℝ) : ℂ))) = 1) := by
  have hrt : frequencyShift sampleRate (frequencyShift sampleRate signal f) (-f) = signal := by
    unfold frequencyShift
    rw [phaseStep_neg]
    have h := rotateFrom_inverse (phaseStep sampleRate f) signal 0
    rwa [neg_zero] at h
  refine ⟨by rw [hrt], hrt, ?_⟩
  intro n hn
  refine ⟨?_, abs_exp_phase _⟩
  unfold frequencyShift
  rw [rotateFrom_getD _ _ _ _ hn, zero_add]
  rfl

/-! ## The AM and FM demodulators -/

theorem amDemodulate_getD (signal : List ℂ) (i : Nat) (hi : i < signal.length) :
    (amDemodulate signal).getD i 0 = Complex.abs (signal.getD i 0) := by
  unfold amDemodulate
  rw [List.getD_eq_getElem _ _ (by simpa using hi), List.getD_eq_getElem _ _ hi]
  simp

/-- C4: the AM demodulator returns as many samples as it is given; output `i`
is `sqrt (I^2 + Q^2)` of input sample `i`, and every output sample is
non-negative. -/
theorem amDemodulate_magnitude (signal : List ℂ) :
    (amDemodulate signal).length = signal.length
    ∧ (∀ i : Nat, i < signal.length →
        (amDemodulate signal).getD i 0
          = Real.sqrt ((signal.getD i 0).re ^ 2 + (signal.getD i 0).im ^ 2))
    ∧ (∀ y : ℝ, y ∈ amDemodulate signal → 0 ≤ y) := by
  refine ⟨by simp [amDemodulate], ?_, ?_⟩
  · intro i hi
    rw [amDemodulate_getD signal i hi, Complex.abs_apply, Complex.normSq_apply]
    congr 1
    ring
  · intro y hy
    simp only [amDemodulate, List.mem_map] at hy
    obtain ⟨z, _, rfl⟩ := hy
    exact Complex.abs.nonneg z

theorem fmDemodulate_length (scale : ℝ) (signal : List ℂ) :
    (fmDemodulate scale signal).length = signal.length - 1 := by
  simp [fmDemodulate, List.length_zipWith]

theorem zipWith_tail_getD (g : ℂ → ℂ → ℝ) (signal : List ℂ) (i : Nat)
    (hi : i + 1 < signal.length) :
    (List.zipWith g signal.tail signal).getD i 0
      = g (signal.getD (i + 1) 0) (signal.getD i 0) := by
  have h1 : i < signal.tail.length := by simp; omega
  have h2 : i < signal.length := by omega
  have h3 : i < (List.zipWith g signal.tail signal).length := by
    simp [List.length_zipWith]; omega
  rw [List.getD_eq_getElem _ _ h3, List.getElem_zipWith, List.getD_eq_getElem _ _ hi,
    List.getD_eq_getElem _ _ h2]
  simp [List.getElem_tail]

theorem phaseDifference_mem (cur prev : ℂ) :
    -Real.pi < phaseDifference cur prev ∧ phaseDifference cur prev ≤ Real.pi :=
  ⟨Complex.neg_pi_lt_arg _, Complex.arg_le_pi _⟩

/-- C5: every output sample of the FM demodulator is the scale constant times
the phase of `sample[i+1] * conj (sample[i])` for a pair of consecutive input
samples, and that phase lies in the half-open interval `(-pi, pi]`. -/
theorem fmDemodulate_wrapped_phase (scale : ℝ) (signal : List ℂ) (i : Nat)
    (hi : i < (fmDemodulate scale signal).length) :
    (fmDemodulate scale signal).getD i 0
        = scale * Complex.arg (signal.getD (i + 1) 0 * (starRingEnd ℂ) (signal.getD i 0))
    ∧ -Real.pi < Complex.arg (signal.getD (i + 1) 0 * (starRingEnd ℂ) (signal.getD i 0))
    ∧ Complex.arg (signal.getD (i + 1) 0 * (starRingEnd ℂ) (signal.getD i 0)) ≤ Real.pi := by
  rw [fmDemodulate_length] at hi
  refine ⟨?_, Complex.neg_pi_lt_arg _, Complex.arg_le_pi _⟩
  unfold fmDemodulate
  rw [zipWith_tail_getD _ signal i (by omega)]
  rfl

/-- C5 (witness): the two-sample signal `1, i`, a quarter turn. -/
theorem fmDemodulate_wrapped_phase_witness :
    (fmDemodulate 1 [1, Complex.I]).getD 0 0
        = 1 * Complex.arg (([1, Complex.I] : List ℂ).getD (0 + 1) 0
            * (starRingEnd ℂ) (([1, Complex.I] : List ℂ).getD 0 0))
    ∧ -Real.pi < Complex.arg (([1, Complex.I] : List ℂ).getD (0 + 1) 0
            * (starRingEnd ℂ) (([1, Complex.I] : List ℂ).getD 0 0))
    ∧ Complex.arg (([1, Complex.I] : List ℂ).getD (0 + 1) 0
            * (starRingEnd ℂ) (([1, Complex.I] : List ℂ).getD 0 0)) ≤ Real.pi :=
  fmDemodulate_wrapped_phase 1 [1, Complex.I] 0 (by simp [fmDemodulate])

/-! ## The vertical sync detector -/

theorem qRed_qRgb (r g b : Nat) : qRed (qRgb r g b) = r % 256 := by
  unfold qRed qRgb
  omega

theorem qGreen_qRgb (r g b : Nat) : qGreen (qRgb r g b) = g % 256 := by
  unfold qGreen qRgb
  omega

theorem qBlue_qRgb (r g b : Nat) : qBlue (qRgb r g b) = b % 256 := by
  unfold qBlue qRgb
  omega

theorem saturate_le (x : ℚ) : saturate x ≤ 255 := by
  unfold saturate
  split_ifs with h1 h2
  · omega
  · exact le_refl _
  · exact Nat.floor_le_of_le (by exact_mod_cast not_lt.mp h2)

theorem saturate_cases (x : ℚ) :
    (x < 0 → saturate x = 0) ∧ (255 < x → saturate x = 255)
    ∧ (0 ≤ x → x ≤ 255 → saturate x = Nat.floor x) := by
  refine ⟨?_, ?_, ?_⟩
  · intro h
    simp [saturate, h]
  · intro h
    have h0 : ¬ x < 0 := by linarith
    simp [saturate, h, h0]
  · intro h0 h1
    simp [saturate, not_lt.mpr h0, not_lt.mpr h1]

/-- C7: for every triple `(y, u, v)` each of the red, green and blue channels of
`yuv2rgb y u v` is the saturated value of its linear combination of `y`, `u`,
`v`: an integer between 0 and 255, equal to 0 when the combination is negative,
to 255 when it exceeds 255, and to its integer part otherwise, so that packing
the pixel never drops high bits of a channel. -/
theorem yuv2rgb_channels_saturated (m : YuvMatrix) (y u v : ℚ) :
    (qRed (yuv2rgb m y u v) = saturate (m.ry * y + m.ru * u + m.rv * v)
      ∧ qGreen (yuv2rgb m y u v) = saturate (m.gy * y + m.gu * u + m.gv * v)
      ∧ qBlue (yuv2rgb m y u v) = saturate (m.biy * y + m.biu * u + m.biv * v))
    ∧ (qRed (yuv2rgb m y u v) ≤ 255 ∧ qGreen (yuv2rgb m y u v) ≤ 255
      ∧ qBlue (yuv2rgb m y u v) ≤ 255)
    ∧ (∀ x : ℚ, (x < 0 → saturate x = 0) ∧ (255 < x → saturate x = 255)
        ∧ (0 ≤ x → x ≤ 255 → saturate x = Nat.floor x)) := by
  have hr : qRed (yuv2rgb m y u v) = saturate (m.ry * y + m.ru * u + m.rv * v) := by
    unfold yuv2rgb
    rw [qRed_qRgb, Nat.mod_eq_of_lt (Nat.lt_succ_of_le (saturate_le _))]
  have hg : qGreen (yuv2rgb m y u v) = saturate (m.gy * y + m.gu * u + m.gv * v) := by
    unfold yuv2rgb
    rw [qGreen_qRgb, Nat.mod_eq_of_lt (Nat.lt_succ_of_le (saturate_le _))]
  have hb : qBlue (yuv2rgb m y u v) = saturate (m.biy * y + m.biu * u + m.biv * v) := by
    unfold yuv2rgb
    rw [qBlue_qRgb, Nat.mod_eq_of_lt (Nat.lt_succ_of_le (saturate_le _))]
  refine ⟨⟨hr, hg, hb⟩, ⟨?_, ?_, ?_⟩, saturate_cases⟩
  · rw [hr]; exact saturate_le _
  · rw [hg]; exact saturate_le _
  · rw [hb]; exact saturate_le _

/-! ## The frame assembler and the decoded frame -/

theorem pixelGrid_length (rows cols : Nat) (lines : List (List QRgb)) :
    (pixelGrid rows cols lines).length = rows := by
  simp [pixelGrid]

theorem pixelGrid_row_length (rows cols : Nat) (lines : List (List QRgb)) (row : List QRgb)
    (h : row ∈ pixelGrid rows cols lines) : row.length = cols := by
  simp only [pixelGrid, List.mem_map, List.mem_range] at h
  obtain ⟨r, _, rfl⟩ := h
  simp

theorem pixelGrid_pixel (rows cols : Nat) (lines : List (List QRgb)) (r c : Nat)
    (hr : r < rows) (hc : c < cols) :
    ((pixelGrid rows cols lines).getD r []).getD c 0 = (lines.getD r []).getD c blackPixel := by
  have hrow : (pixelGrid rows cols lines).getD r []
      = (List.range cols).map fun (c : Nat) => (lines.getD r []).getD c blackPixel := by
    unfold pixelGrid
    rw [List.getD_eq_getElem _ _ (by simpa using hr)]
    simp only [List.getElem_map, List.getElem_range]
  rw [hrow, List.getD_eq_getElem _ _ (by simpa using hc)]
  simp only [List.getElem_map, List.getElem_range]

theorem demodulate_image (stages : DecodeStages) (d : PALBDemodulator) (samples : List IQ) :
    (d.demodulate stages samples).image
      = pixelGrid VISIBLE_LINES PIXELS_PER_LINE
          (stages.decodeLines (d.fieldSignal stages samples)) := by
  simp only [PALBDemodulator.demodulate, convertToImage]

/-- C8: for every input buffer, whatever lines are decoded from it (none for an
empty buffer, too few for a short one), the image of the frame returned by
`demodulate` has `VISIBLE_LINES = 576` rows of `PIXELS_PER_LINE = 720` pixels
each, and the pixel at row `r`, column `c` is pixel `c` of decoded line `r`
(black where no decoded pixel exists): rows run top to bottom, pixels left to
right. -/
theorem demodulate_image_dimensions (stages : DecodeStages) (d : PALBDemodulator)
    (samples : List IQ) :
    (d.demodulate stages samples).image.length = 576
    ∧ (∀ row ∈ (d.demodulate stages samples).image, row.length = 720)
    ∧ VISIBLE_LINES = 576 ∧ PIXELS_PER_LINE = 720
    ∧ (∀ r c : Nat, r < 576 → c < 720 →
        (((d.demodulate stages samples).image).getD r []).getD c 0
          = ((stages.decodeLines (d.fieldSignal stages samples)).getD r []).getD c
              blackPixel) := by
  rw [demodulate_image]
  refine ⟨?_, ?_, rfl, rfl, ?_⟩
  · rw [pixelGrid_length]
    rfl
  · intro row hrow
    rw [pixelGrid_row_length _ _ _ row hrow]
    rfl
  · intro r c hr hc
    exact pixelGrid_pixel _ _ _ r c hr hc

/-! ## The constants of the demodulator -/

/-- C11: the fixed configuration of the demodulator: video carrier 5.5 MHz, audio
carrier 5.74 MHz, colour subcarrier 4.43361875 MHz, 625 lines per frame, 576
visible lines, 720 pixels per line, a line of 64 microseconds and a field of
20 milliseconds. -/
theorem palb_fixed_configuration :
    VIDEO_CARRIER = 5.5 * 10 ^ 6
    ∧ AUDIO_CARRIER = 5.74 * 10 ^ 6
    ∧ COLOR_SUBCARRIER = 4.43361875 * 10 ^ 6
    ∧ LINES_PER_FRAME = 625
    ∧ VISIBLE_LINES = 576
    ∧ PIXELS_PER_LINE = 720
    ∧ LINE_DURATION * 10 ^ 6 = 64
    ∧ FIELD_DURATION * 10 ^ 3 = 20 := by
  refine ⟨?_, ?_, ?_, rfl, rfl, rfl, ?_, ?_⟩
  · unfold VIDEO_CARRIER; norm_num
  · unfold AUDIO_CARRIER; norm_num
  · unfold COLOR_SUBCARRIER; norm_num
  · unfold LINE_DURATION; norm_num
  · unfold FIELD_DURATION; norm_num

/-- C12: the timing constants agree with 25 frames per second: 625 lines of 64
microseconds are 40 milliseconds, which is 1/25 second and two field durations;
fewer lines are visible than a frame has; and for every sample rate the line
boundary `k * sampleRate * LINE_DURATION` at `k = LINES_PER_FRAME` falls at the
end of the second field. -/
theorem palb_timing_consistent :
    (LINES_PER_FRAME : ℚ) * LINE_DURATION = 40 / 10 ^ 3
    ∧ (LINES_PER_FRAME : ℚ) * LINE_DURATION = 1 / 25
    ∧ (LINES_PER_FRAME : ℚ) * LINE_DURATION = 2 * FIELD_DURATION
    ∧ VISIBLE_LINES < LINES_PER_FRAME
    ∧ (∀ sampleRate : ℚ,
        (LINES_PER_FRAME : ℚ) * sampleRate * LINE_DURATION = 2 * (sampleRate * FIELD_DURATION)) := by
  refine ⟨?_, ?_, ?_, ?_, ?_⟩
  · unfold LINES_PER_FRAME LINE_DURATION; norm_num
  · unfold LINES_PER_FRAME LINE_DURATION; norm_num
  · unfold LINES_PER_FRAME LINE_DURATION FIELD_DURATION; norm_num
  · unfold VISIBLE_LINES LINES_PER_FRAME; norm_num
  · intro sampleRate
    unfold LINES_PER_FRAME LINE_DURATION FIELD_DURATION
    push_cast
    ring

/-! ## `HackRfDevice` setters and getters -/

theorem report_members (d : HackRfDevice) (call : String) (r : Int) :
    (d.report call r).h_device = d.h_device
    ∧ (d.report call r).m_frequency = d.m_frequency
    ∧ (d.report call r).m_sampleRate = d.m_sampleRate
    ∧ (d.report call r).m_lnaGain = d.m_lnaGain
    ∧ (d.report call r).m_vgaGain = d.m_vgaGain
    ∧ (d.report call r).m_txVgaGain = d.m_txVgaGain
    ∧ (d.report call r).m_ampEnable = d.m_ampEnable
    ∧ (d.report call r).m_basebandFilterBandwidth = d.m_basebandFilterBandwidth
    ∧ (d.report call r).m_antennaEnable = d.m_antennaEnable := by
  unfold HackRfDevice.report
  split_ifs <;> simp

theorem setBasebandFilterBandwidth_sampleRate (sdk : HackRfSdk) (d : HackRfDevice) (bw : Nat) :
    (d.setBasebandFilterBandwidth sdk bw).m_sampleRate = d.m_sampleRate := by
  unfold HackRfDevice.setBasebandFilterBandwidth
  cases d.h_device with
  | none => rfl
  | some h => simp only [(report_members _ _ _).2.2.1]

/-- C14: for each of frequency, sample rate, LNA gain, VGA gain, TX VGA gain,
amplifier enable, baseband filter bandwidth and antenna enable, the getter
called after the setter with value `v` returns `v`, for every state of the
device (open or not) and every result code of the SDK call. -/
theorem HackRfDevice_get_after_set (sdk : HackRfSdk) (d : HackRfDevice) :
    (∀ v : Nat, (d.setFrequency sdk v).getFrequency = v)
    ∧ (∀ v : Nat, (d.setSampleRate sdk v).getSampleRate = v)
    ∧ (∀ v : Nat, (d.setLnaGain sdk v).getLnaGain = v)
    ∧ (∀ v : Nat, (d.setVgaGain sdk v).getVgaGain = v)
    ∧ (∀ v : Nat, (d.setTxVgaGain sdk v).getTxVgaGain = v)
    ∧ (∀ v : Bool, (d.setAmpEnable sdk v).getAmpEnable = v)
    ∧ (∀ v : Nat, (d.setBasebandFilterBandwidth sdk v).getBasebandFilterBandwidth = v)
    ∧ (∀ v : Bool, (d.setAntennaEnable sdk v).getAntennaEnable = v) := by
  refine ⟨?_, ?_, ?_, ?_, ?_, ?_, ?_, ?_⟩
  · intro v
    unfold HackRfDevice.getFrequency HackRfDevice.setFrequency
    cases d.h_device with
    | none => rfl
    | some h => simp only [(report_members _ _ _).2.1]
  · intro v
    unfold HackRfDevice.getSampleRate HackRfDevice.setSampleRate
    cases d.h_device with
    | none => rfl
    | some h =>
      simp only [setBasebandFilterBandwidth_sampleRate, (report_members _ _ _).2.2.1]
  · intro v
    unfold HackRfDevice.getLnaGain HackRfDevice.setLnaGain
    cases d.h_device with
    | none => rfl
    | some h => simp only [(report_members _ _ _).2.2.2.1]
  · intro v
    unfold HackRfDevice.getVgaGain HackRfDevice.setVgaGain
    cases d.h_device with
    | none => rfl
    | some h => simp only [(report_members _ _ _).2.2.2.2.1]
  · intro v
    unfold HackRfDevice.getTxVgaGain HackRfDevice.setTxVgaGain
    cases d.h_device with
    | none => rfl
    | some h => simp only [(report_members _ _ _).2.2.2.2.2.1]
  · intro v
    unfold HackRfDevice.getAmpEnable HackRfDevice.setAmpEnable
    cases d.h_device with
    | none => rfl
    | some h => simp only [(report_members _ _ _).2.2.2.2.2.2.1]
  · intro v
    unfold HackRfDevice.getBasebandFilterBandwidth HackRfDevice.setBasebandFilterBandwidth
    cases d.h_device with
    | none => rfl
    | some h => simp only [(report_members _ _ _).2.2.2.2.2.2.2.1]
  · intro v
    unfold HackRfDevice.getAntennaEnable HackRfDevice.setAntennaEnable
    cases d.h_device with
    | none => rfl
    | some h => simp only [(report_members _ _ _).2.2.2.2.2.2.2.2]

/-! ## The mode configuration of `HackTvLib::start` -/

theorem bind_eq_ok {ε α β : Type} (x : Except ε α) (f : α → Except ε β) (b : β) :
    (x >>= f) = Except.ok b ↔ ∃ a : α, x = Except.ok a ∧ f a = Except.ok b := by
  cases x with
  | error e => simp [bind, Except.bind]
  | ok a => simp [bind, Except.bind]

theorem bind_eq_error {ε α β : Type} (x : Except ε α) (f : α → Except ε β) (e : ε) :
    (x >>= f) = Except.error e
      ↔ x = Except.error e ∨ ∃ a : α, x = Except.ok a ∧ f a = Except.error e := by
  cases x with
  | error e0 => simp [bind, Except.bind]
  | ok a => simp [bind, Except.bind]

theorem checkVideocrypt_ok (s : hacktv_t) (c r : vid_config_t)
    (h : checkVideocrypt s c = Except.ok r) :
    r = (if s.videocrypt.isSome then { c with videocrypt := s.videocrypt } else c)
    ∧ (s.videocrypt.isSome → c.lines = 625 ∨ c.colour_mode = ColourMode.VID_PAL) := by
  unfold checkVideocrypt at h
  split_ifs at h with h1 h2
  · simp only [Except.ok.injEq] at h
    subst h
    refine ⟨by simp [h1], fun _ => ?_⟩
    by_contra hc
    push_neg at hc
    exact h2 hc
  · simp only [Except.ok.injEq] at h
    subst h
    exact ⟨by simp [h1], fun hs => absurd hs h1⟩

theorem checkVideocrypt2_ok (s : hacktv_t) (c r : vid_config_t)
    (h : checkVideocrypt2 s c = Except.ok r) :
    r = (if s.videocrypt2.isSome then { c with videocrypt2 := s.videocrypt2 } else c)
    ∧ (s.videocrypt2.isSome → c.lines = 625 ∨ c.colour_mode = ColourMode.VID_PAL)
    ∧ (s.videocrypt2.isSome → s.videocrypt.isSome →
        s.videocrypt = some "free" ∧ s.videocrypt2 = some "free") := by
  unfold checkVideocrypt2 at h
  split_ifs at h with h1 h2 h3
  · simp only [Except.ok.injEq] at h
    subst h
    refine ⟨by simp [h1], fun _ => ?_, fun _ hv => ?_⟩
    · by_contra hc
      push_neg at hc
      exact h2 hc
    · by_contra hc
      exact h3 ⟨hv, hc⟩
  · simp only [Except.ok.injEq] at h
    subst h
    exact ⟨by simp [h1], fun hs => absurd hs h1, fun hs => absurd hs h1⟩

theorem checkVideocrypts_ok (s : hacktv_t) (c r : vid_config_t)
    (h : checkVideocrypts s c = Except.ok r) :
    r = (if s.videocrypts.isSome then { c with videocrypts := s.videocrypts } else c)
    ∧ (s.videocrypts.isSome → c.lines = 625 ∨ c.colour_mode = ColourMode.VID_PAL)
    ∧ (s.videocrypts.isSome → s.videocrypt = none ∧ s.videocrypt2 = none) := by
  unfold checkVideocrypts at h
  split_ifs at h with h1 h2 h3
  · simp only [Except.ok.injEq] at h
    subst h
    refine ⟨by simp [h1], fun _ => ?_, fun _ => ?_⟩
    · by_contra hc
      push_neg at hc
      exact h2 hc
    · push_neg at h3
      simpa using h3
  · simp only [Except.ok.injEq] at h
    subst h
    exact ⟨by simp [h1], fun hs => absurd hs h1, fun hs => absurd hs h1⟩

theorem checkSyster_ok (s : hacktv_t) (c r : vid_config_t)
    (h : checkSyster s c = Except.ok r) :
    r = (if s.syster ≠ 0 then { c with syster := 1, systeraudio := s.systeraudio } else c)
    ∧ (s.syster ≠ 0 → c.lines = 625 ∨ c.colour_mode = ColourMode.VID_PAL)
    ∧ (s.syster ≠ 0 → c.videocrypt = none ∧ c.videocrypt2 = none ∧ c.videocrypts = none) := by
  unfold checkSyster at h
  split_ifs at h with h1 h2 h3
  · simp only [Except.ok.injEq] at h
    subst h
    refine ⟨by simp [h1], fun _ => ?_, fun _ => ?_⟩
    · by_contra hc
      push_neg at hc
      exact h2 hc
    · push_neg at h3
      simpa using h3
  · simp only [Except.ok.injEq] at h
    subst h
    exact ⟨by simp [h1], fun hs => absurd hs h1, fun hs => absurd hs h1⟩

theorem checkEurocrypt_ok (s : hacktv_t) (c r : vid_config_t)
    (h : checkEurocrypt s c = Except.ok r) :
    r = (if s.eurocrypt.isSome then
          { c with
            scramble_video := if c.scramble_video = 0 then 1 else c.scramble_video,
            eurocrypt := s.eurocrypt }
        else c) := by
  unfold checkEurocrypt at h
  by_cases h1 : s.eurocrypt.isSome
  · rw [if_pos h1] at h ⊢
    by_cases h2 : c.type ≠ VidType.VID_MAC
    · rw [if_pos h2] at h
      exact Except.noConfusion h
    · rw [if_neg h2] at h
      exact (Except.ok.inj h).symm
  · rw [if_neg h1] at h ⊢
    exact (Except.ok.inj h).symm

theorem checkAcp_ok (s : hacktv_t) (c r : vid_config_t)
    (h : checkAcp s c = Except.ok r) :
    r = (if s.acp ≠ 0 then { c with acp := 1 } else c)
    ∧ (s.acp ≠ 0 → c.lines = 625 ∨ c.lines = 525)
    ∧ (s.acp ≠ 0 →
        c.videocrypt = none ∧ c.videocrypt2 = none ∧ c.videocrypts = none ∧ c.syster = 0) := by
  unfold checkAcp at h
  split_ifs at h with h1 h2 h3
  · simp only [Except.ok.injEq] at h
    subst h
    refine ⟨by simp [h1], fun _ => ?_, fun _ => ?_⟩
    · by_contra hc
      push_neg at hc
      exact h2 hc
    · push_neg at h3
      simpa using h3
  · simp only [Except.ok.injEq] at h
    subst h
    exact ⟨by simp [h1], fun hs => absurd hs h1, fun hs => absurd hs h1⟩


theorem checkScrambling_ok (s : hacktv_t) (c r : vid_config_t)
    (h : checkScrambling s c = Except.ok r) :
    r.lines = c.lines ∧ r.colour_mode = c.colour_mode ∧ r.type = c.type
    ∧ r.videocrypt = (if s.videocrypt.isSome then s.videocrypt else c.videocrypt)
    ∧ r.videocrypt2 = (if s.videocrypt2.isSome then s.videocrypt2 else c.videocrypt2)
    ∧ r.videocrypts = (if s.videocrypts.isSome then s.videocrypts else c.videocrypts)
    ∧ r.syster = (if s.syster ≠ 0 then 1 else c.syster)
    ∧ r.acp = (if s.acp ≠ 0 then 1 else c.acp)
    ∧ r.scramble_video
        = (if s.eurocrypt.isSome then (if c.scramble_video = 0 then 1 else c.scramble_video)
           else c.scramble_video)
    ∧ (s.videocrypt2.isSome → s.videocrypt.isSome →
        s.videocrypt = some "free" ∧ s.videocrypt2 = some "free")
    ∧ (s.videocrypts.isSome → s.videocrypt = none ∧ s.videocrypt2 = none)
    ∧ (s.syster ≠ 0 → r.videocrypt = none ∧ r.videocrypt2 = none ∧ r.videocrypts = none)
    ∧ (s.acp ≠ 0 →
        r.videocrypt = none ∧ r.videocrypt2 = none ∧ r.videocrypts = none ∧ r.syster = 0)
    ∧ ((s.videocrypt.isSome ∨ s.videocrypt2.isSome ∨ s.videocrypts.isSome ∨ s.syster ≠ 0) →
        c.lines = 625 ∨ c.colour_mode = ColourMode.VID_PAL) := by
  unfold checkScrambling at h
  obtain ⟨c5, h, h6⟩ := (bind_eq_ok _ _ _).mp h
  obtain ⟨c4, h, h5⟩ := (bind_eq_ok _ _ _).mp h
  obtain ⟨c3, h, h4⟩ := (bind_eq_ok _ _ _).mp h
  obtain ⟨c2, h, h3⟩ := (bind_eq_ok _ _ _).mp h
  obtain ⟨c1, h1, h2⟩ := (bind_eq_ok _ _ _).mp h
  obtain ⟨e1, g1⟩ := checkVideocrypt_ok s c c1 h1
  obtain ⟨e2, g2, f2⟩ := checkVideocrypt2_ok s c1 c2 h2
  obtain ⟨e3, g3, f3⟩ := checkVideocrypts_ok s c2 c3 h3
  obtain ⟨e4, g4, f4⟩ := checkSyster_ok s c3 c4 h4
  have e5 := checkEurocrypt_ok s c4 c5 h5
  obtain ⟨e6, g6, f6⟩ := checkAcp_ok s c5 r h6
  have l1 : c1.lines = c.lines ∧ c1.colour_mode = c.colour_mode ∧ c1.type = c.type
      ∧ c1.videocrypt = (if s.videocrypt.isSome then s.videocrypt else c.videocrypt)
      ∧ c1.videocrypt2 = c.videocrypt2 ∧ c1.videocrypts = c.videocrypts
      ∧ c1.syster = c.syster ∧ c1.acp = c.acp ∧ c1.scramble_video = c.scramble_video := by
    rw [e1]; split_ifs <;> simp
  have l2 : c2.lines = c1.lines ∧ c2.colour_mode = c1.colour_mode ∧ c2.type = c1.type
      ∧ c2.videocrypt = c1.videocrypt
      ∧ c2.videocrypt2 = (if s.videocrypt2.isSome then s.videocrypt2 else c1.videocrypt2)
      ∧ c2.videocrypts = c1.videocrypts
      ∧ c2.syster = c1.syster ∧ c2.acp = c1.acp ∧ c2.scramble_video = c1.scramble_video := by
    rw [e2]; split_ifs <;> simp
  have l3 : c3.lines = c2.lines ∧ c3.colour_mode = c2.colour_mode ∧ c3.type = c2.type
      ∧ c3.videocrypt = c2.videocrypt ∧ c3.videocrypt2 = c2.videocrypt2
      ∧ c3.videocrypts = (if s.videocrypts.isSome then s.videocrypts else c2.videocrypts)
      ∧ c3.syster = c2.syster ∧ c3.acp = c2.acp ∧ c3.scramble_video = c2.scramble_video := by
    rw [e3]; split_ifs <;> simp
  have l4 : c4.lines = c3.lines ∧ c4.colour_mode = c3.colour_mode ∧ c4.type = c3.type
      ∧ c4.videocrypt = c3.videocrypt ∧ c4.videocrypt2 = c3.videocrypt2
      ∧ c4.videocrypts = c3.videocrypts
      ∧ c4.syster = (if s.syster ≠ 0 then 1 else c3.syster) ∧ c4.acp = c3.acp
      ∧ c4.scramble_video = c3.scramble_video := by
    rw [e4]; split_ifs <;> simp
  have l5 : c5.lines = c4.lines ∧ c5.colour_mode = c4.colour_mode ∧ c5.type = c4.type
      ∧ c5.videocrypt = c4.videocrypt ∧ c5.videocrypt2 = c4.videocrypt2
      ∧ c5.videocrypts = c4.videocrypts ∧ c5.syster = c4.syster ∧ c5.acp = c4.acp
      ∧ c5.scramble_video
          = (if s.eurocrypt.isSome then (if c4.scramble_video = 0 then 1 else c4.scramble_video)
             else c4.scramble_video) := by
    rw [e5]
    by_cases he : s.eurocrypt.isSome
    · simp only [if_pos he, and_self]
    · simp only [if_neg he, and_self]
  have l6 : r.lines = c5.lines ∧ r.colour_mode = c5.colour_mode ∧ r.type = c5.type
      ∧ r.videocrypt = c5.videocrypt ∧ r.videocrypt2 = c5.videocrypt2
      ∧ r.videocrypts = c5.videocrypts ∧ r.syster = c5.syster
      ∧ r.acp = (if s.acp ≠ 0 then 1 else c5.acp)
      ∧ r.scramble_video = c5.scramble_video := by
    rw [e6]; split_ifs <;> simp
  obtain ⟨a1, a2, a3, a4, a5, a6, a7, a8, a9⟩ := l1
  obtain ⟨b1, b2, b3, b4, b5, b6, b7, b8, b9⟩ := l2
  obtain ⟨d1, d2, d3, d4, d5, d6, d7, d8, d9⟩ := l3
  obtain ⟨k1, k2, k3, k4, k5, k6, k7, k8, k9⟩ := l4
  obtain ⟨m1, m2, m3, m4, m5, m6, m7, m8, m9⟩ := l5
  obtain ⟨n1, n2, n3, n4, n5, n6, n7, n8, n9⟩ := l6
  refine ⟨by rw [n1, m1, k1, d1, b1, a1], by rw [n2, m2, k2, d2, b2, a2],
    by rw [n3, m3, k3, d3, b3, a3], by rw [n4, m4, k4, d4, b4, a4],
    by rw [n5, m5, k5, d5, b5, a5], by rw [n6, m6, k6, d6, b6, a6],
    by rw [n7, m7, k7, d7, b7, a7], by rw [n8, m8, k8, d8, b8, a8],
    by rw [n9, m9, k9, d9, b9, a9], f2, f3, ?_, ?_, ?_⟩
  · intro hs
    obtain ⟨x1, x2, x3⟩ := f4 hs
    exact ⟨by rw [n4, m4, k4, x1], by rw [n5, m5, k5, x2], by rw [n6, m6, k6, x3]⟩
  · intro hs
    obtain ⟨x1, x2, x3, x4⟩ := f6 hs
    exact ⟨by rw [n4, x1], by rw [n5, x2], by rw [n6, x3], by rw [n7, x4]⟩
  · rintro (hs | hs | hs | hs)
    · exact g1 hs
    · have := g2 hs
      rwa [a1, a2] at this
    · have := g3 hs
      rwa [b1, b2, a1, a2] at this
    · have := g4 hs
      rwa [d1, d2, b1, b2, a1, a2] at this

theorem checkTeletext_same (s : hacktv_t) (c r : vid_config_t)
    (h : checkTeletext s c = Except.ok r) : SameScrambling r c := by
  unfold checkTeletext at h
  split_ifs at h <;> simp only [Except.ok.injEq] at h <;> subst h <;> simp [SameScrambling]

theorem checkWss_same (s : hacktv_t) (c r : vid_config_t)
    (h : checkWss s c = Except.ok r) : SameScrambling r c := by
  unfold checkWss at h
  split_ifs at h <;> simp only [Except.ok.injEq] at h <;> subst h <;> simp [SameScrambling]

theorem checkVits_same (s : hacktv_t) (c r : vid_config_t)
    (h : checkVits s c = Except.ok r) : SameScrambling r c := by
  unfold checkVits at h
  split_ifs at h <;> simp only [Except.ok.injEq] at h <;> subst h <;> simp [SameScrambling]

theorem checkVitc_same (s : hacktv_t) (c r : vid_config_t)
    (h : checkVitc s c = Except.ok r) : SameScrambling r c := by
  unfold checkVitc at h
  split_ifs at h <;> simp only [Except.ok.injEq] at h <;> subst h <;> simp [SameScrambling]

theorem checkSis_same (s : hacktv_t) (c r : vid_config_t)
    (h : checkSis s c = Except.ok r) : SameScrambling r c := by
  unfold checkSis at h
  split_ifs at h <;> simp only [Except.ok.injEq] at h <;> subst h <;> simp [SameScrambling]

theorem applyMacAndFilter_same (s : hacktv_t) (c : vid_config_t) :
    SameScrambling (applyMacAndFilter s c) c := by
  unfold applyMacAndFilter
  split_ifs <;> simp [SameScrambling]

theorem applyTail_same (s : hacktv_t) (c : vid_config_t) :
    SameScrambling (applyTail s c) c := by
  simp [applyTail, SameScrambling]

theorem SameScrambling_trans (a b c : vid_config_t) (h1 : SameScrambling a b)
    (h2 : SameScrambling b c) : SameScrambling a c := by
  obtain ⟨a1, a2, a3, a4, a5, a6, a7, a8, a9⟩ := h1
  obtain ⟨b1, b2, b3, b4, b5, b6, b7, b8, b9⟩ := h2
  exact ⟨a1.trans b1, a2.trans b2, a3.trans b3, a4.trans b4, a5.trans b5, a6.trans b6,
    a7.trans b7, a8.trans b8, a9.trans b9⟩

theorem applyDeviation_same (s : hacktv_t) (c : vid_config_t) :
    SameScrambling (applyDeviation s c) c := by
  unfold applyDeviation
  split_ifs <;> simp [SameScrambling]

theorem applyGamma_same (s : hacktv_t) (c : vid_config_t) :
    SameScrambling (applyGamma s c) c := by
  unfold applyGamma
  split_ifs <;> simp [SameScrambling]

theorem applyInterlace_same (s : hacktv_t) (c : vid_config_t) :
    SameScrambling (applyInterlace s c) c := by
  unfold applyInterlace
  split_ifs <;> simp [SameScrambling]

theorem applyNoAudio_same (s : hacktv_t) (c : vid_config_t) :
    SameScrambling (applyNoAudio s c) c := by
  unfold applyNoAudio
  split_ifs <;> simp [SameScrambling]

theorem applyNoNicam_same (s : hacktv_t) (c : vid_config_t) :
    SameScrambling (applyNoNicam s c) c := by
  unfold applyNoNicam
  split_ifs <;> simp [SameScrambling]

theorem applyA2Stereo_same (s : hacktv_t) (c : vid_config_t) :
    SameScrambling (applyA2Stereo s c) c := by
  unfold applyA2Stereo
  split_ifs <;> simp [SameScrambling]

theorem applyNoColour_members (s : hacktv_t) (c : vid_config_t) :
    (applyNoColour s c).lines = c.lines ∧ (applyNoColour s c).type = c.type
    ∧ (applyNoColour s c).videocrypt = c.videocrypt
    ∧ (applyNoColour s c).videocrypt2 = c.videocrypt2
    ∧ (applyNoColour s c).videocrypts = c.videocrypts
    ∧ (applyNoColour s c).syster = c.syster ∧ (applyNoColour s c).acp = c.acp
    ∧ (s.nocolour = 0 → (applyNoColour s c).colour_mode = c.colour_mode) := by
  unfold applyNoColour
  split_ifs with h1 h2
  · exact ⟨rfl, rfl, rfl, rfl, rfl, rfl, rfl, fun h0 => absurd h0 h1⟩
  · exact ⟨rfl, rfl, rfl, rfl, rfl, rfl, rfl, fun _ => rfl⟩
  · exact ⟨rfl, rfl, rfl, rfl, rfl, rfl, rfl, fun _ => rfl⟩

theorem applyOverrides_members (s : hacktv_t) (c : vid_config_t) :
    (applyOverrides s c).lines = c.lines ∧ (applyOverrides s c).type = c.type
    ∧ (applyOverrides s c).videocrypt = c.videocrypt
    ∧ (applyOverrides s c).videocrypt2 = c.videocrypt2
    ∧ (applyOverrides s c).videocrypts = c.videocrypts
    ∧ (applyOverrides s c).syster = c.syster ∧ (applyOverrides s c).acp = c.acp
    ∧ (applyOverrides s c).scramble_video = s.scramble_video
    ∧ (s.nocolour = 0 → (applyOverrides s c).colour_mode = c.colour_mode) := by
  have hpre : SameScrambling (applyInterlace s (applyGamma s (applyDeviation s c))) c :=
    SameScrambling_trans _ _ _ (applyInterlace_same s _)
      (SameScrambling_trans _ _ _ (applyGamma_same s _) (applyDeviation_same s c))
  have hpost : ∀ x : vid_config_t,
      SameScrambling (applyA2Stereo s (applyNoNicam s (applyNoAudio s x))) x := fun x =>
    SameScrambling_trans _ _ _ (applyA2Stereo_same s _)
      (SameScrambling_trans _ _ _ (applyNoNicam_same s _) (applyNoAudio_same s x))
  obtain ⟨a1, a2, a3, a4, a5, a6, a7, a8, _⟩ := hpre
  obtain ⟨b1, b2, b3, b4, b5, b6, b7, b8⟩ :=
    applyNoColour_members s (applyInterlace s (applyGamma s (applyDeviation s c)))
  obtain ⟨d1, d2, d3, d4, d5, d6, d7, d8, _⟩ :=
    hpost (applyNoColour s (applyInterlace s (applyGamma s (applyDeviation s c))))
  unfold applyOverrides applyScrambleAndLevel
  refine ⟨?_, ?_, ?_, ?_, ?_, ?_, ?_, rfl, ?_⟩
  · exact d1.trans (b1.trans a1)
  · exact d3.trans (b2.trans a3)
  · exact d4.trans (b3.trans a4)
  · exact d5.trans (b4.trans a5)
  · exact d6.trans (b5.trans a6)
  · exact d7.trans (b6.trans a7)
  · exact d8.trans (b7.trans a8)
  · intro h0
    exact d2.trans ((b8 h0).trans a2)

theorem configure_ok (s : hacktv_t) (conf r : vid_config_t)
    (h : configure s conf = Except.ok r) :
    ∃ before after : vid_config_t,
      SameScrambling before (applyOverrides s conf)
      ∧ checkScrambling s before = Except.ok after
      ∧ SameScrambling r after := by
  unfold configure at h
  obtain ⟨c6, h, h7⟩ := (bind_eq_ok _ _ _).mp h
  obtain ⟨c5, h, h6⟩ := (bind_eq_ok _ _ _).mp h
  obtain ⟨c4, h, h5⟩ := (bind_eq_ok _ _ _).mp h
  obtain ⟨c3, h, h4⟩ := (bind_eq_ok _ _ _).mp h
  obtain ⟨c2, h, h3⟩ := (bind_eq_ok _ _ _).mp h
  obtain ⟨c1, h1, h2⟩ := (bind_eq_ok _ _ _).mp h
  refine ⟨c2, c3, ?_, h3, ?_⟩
  · exact SameScrambling_trans _ _ _ (checkWss_same s c1 c2 h2) (checkTeletext_same s _ c1 h1)
  · simp only [Except.ok.injEq] at h7
    subst h7
    refine SameScrambling_trans _ _ _ (applyTail_same s c6) ?_
    refine SameScrambling_trans _ _ _ (checkSis_same s _ c6 h6) ?_
    refine SameScrambling_trans _ _ _ (applyMacAndFilter_same s c5) ?_
    exact SameScrambling_trans _ _ _ (checkVitc_same s c4 c5 h5) (checkVits_same s c3 c4 h4)

theorem isSome_of_ite_eq_none (o d : Option String)
    (h : (if o.isSome then o else d) = none) : o = none := by
  cases o with
  | none => rfl
  | some v => simp at h

/-- C15 (the code at the failing inputs): `--videocrypt`, `--videocrypt2`,
`--videocrypts` and `--syster` are each accepted for a 625-line SECAM mode, and
`--videocrypt` is accepted for a 525-line PAL mode: the check rejects a mode
only when it has neither 625 lines nor PAL colour. -/
theorem scrambling_accepted_outside_625_line_pal :
    (∃ r : vid_config_t,
        configure { defaultOptions with videocrypt := some "free" }
            (plainMode VidType.VID_RASTER_625 625 ColourMode.VID_SECAM) = Except.ok r
        ∧ r.videocrypt = some "free" ∧ r.lines = 625 ∧ r.colour_mode = ColourMode.VID_SECAM)
    ∧ (∃ r : vid_config_t,
        configure { defaultOptions with videocrypt2 := some "free" }
            (plainMode VidType.VID_RASTER_625 625 ColourMode.VID_SECAM) = Except.ok r
        ∧ r.videocrypt2 = some "free" ∧ r.lines = 625 ∧ r.colour_mode = ColourMode.VID_SECAM)
    ∧ (∃ r : vid_config_t,
        configure { defaultOptions with videocrypts := some "free" }
            (plainMode VidType.VID_RASTER_625 625 ColourMode.VID_SECAM) = Except.ok r
        ∧ r.videocrypts = some "free" ∧ r.lines = 625 ∧ r.colour_mode = ColourMode.VID_SECAM)
    ∧ (∃ r : vid_config_t,
        configure { defaultOptions with syster := 1 }
            (plainMode VidType.VID_RASTER_625 625 ColourMode.VID_SECAM) = Except.ok r
        ∧ r.syster = 1 ∧ r.lines = 625 ∧ r.colour_mode = ColourMode.VID_SECAM)
    ∧ (∃ r : vid_config_t,
        configure { defaultOptions with videocrypt := some "free" }
            (plainMode VidType.VID_RASTER_525 525 ColourMode.VID_PAL) = Except.ok r
        ∧ r.videocrypt = some "free" ∧ r.lines = 525 ∧ r.colour_mode = ColourMode.VID_PAL) := by
  refine ⟨?_, ?_, ?_, ?_, ?_⟩ <;>
    norm_num [configure, checkScrambling, applyOverrides, applyDeviation, applyGamma, applyInterlace,
      applyNoColour, applyNoAudio, applyNoNicam, applyA2Stereo, applyScrambleAndLevel,
      checkTeletext, checkWss, checkVideocrypt, checkVideocrypt2, checkVideocrypts, checkSyster,
      checkEurocrypt, checkAcp, checkVits, checkVitc, applyMacAndFilter, checkSis, applyTail,
      defaultOptions, plainMode, bind, Except.bind]

/-- C16 (counterexample): `--acp` with `--single-cut` on a 625-line PAL mode is
accepted, with `acp = 1` and `scramble_video = 1` in the configuration. -/
theorem acp_accepted_with_single_cut :
    ∃ r : vid_config_t,
      configure { defaultOptions with acp := 1, scramble_video := 1 }
          (plainMode VidType.VID_RASTER_625 625 ColourMode.VID_PAL) = Except.ok r
      ∧ r.acp = 1 ∧ r.scramble_video = 1 ∧ r.scramble_video ≠ 0 := by
  norm_num [configure, checkScrambling, applyOverrides, applyDeviation, applyGamma, applyInterlace,
    applyNoColour, applyNoAudio, applyNoNicam, applyA2Stereo, applyScrambleAndLevel,
    checkTeletext, checkWss, checkVideocrypt, checkVideocrypt2, checkVideocrypts, checkSyster,
    checkEurocrypt, checkAcp, checkVits, checkVitc, applyMacAndFilter, checkSis, applyTail,
    defaultOptions, plainMode, bind, Except.bind]

/-- C16 (as amended): for every option set that `start` does not reject,
starting from a mode configuration in which ACP is not enabled, if `vid_conf.acp`
is 1 then `--acp` was given and videocrypt, videocrypt2, videocrypts and syster
are all unset, in the options and in the configuration.  Nothing is said of
`scramble_video`. -/
theorem acp_excludes_line_scrambling (s : hacktv_t) (conf r : vid_config_t)
    (hconf : conf.acp = 0) (h : configure s conf = Except.ok r) (hacp : r.acp = 1) :
    s.acp ≠ 0
    ∧ (r.videocrypt = none ∧ r.videocrypt2 = none ∧ r.videocrypts = none ∧ r.syster = 0)
    ∧ (s.videocrypt = none ∧ s.videocrypt2 = none ∧ s.videocrypts = none ∧ s.syster = 0) := by
  obtain ⟨before, after, hb, hs, ha⟩ := configure_ok s conf r h
  obtain ⟨_, _, _, e4, e5, e6, e7, e8, _, _, _, _, f5, _⟩ := checkScrambling_ok s before after hs
  obtain ⟨_, _, _, a4, a5, a6, a7, a8, _⟩ := ha
  obtain ⟨_, _, _, _, _, _, _, b8, _⟩ := hb
  have hov := (applyOverrides_members s conf).2.2.2.2.2.2.1
  have hs0 : s.acp ≠ 0 := by
    intro h0
    rw [a8, e8, if_neg (not_not.mpr h0), b8, hov, hconf] at hacp
    exact absurd hacp (by decide)
  obtain ⟨x1, x2, x3, x4⟩ := f5 hs0
  refine ⟨hs0, ⟨a4.trans x1, a5.trans x2, a6.trans x3, a7.trans x4⟩, ?_, ?_, ?_, ?_⟩
  · exact isSome_of_ite_eq_none _ _ (e4.symm.trans x1)
  · exact isSome_of_ite_eq_none _ _ (e5.symm.trans x2)
  · exact isSome_of_ite_eq_none _ _ (e6.symm.trans x3)
  · by_contra hne
    rw [e7, if_pos hne] at x4
    exact absurd x4 (by decide)

/-- C16 (witness): `--acp` alone on a 625-line PAL mode. -/
theorem acp_excludes_line_scrambling_witness :
    ({ defaultOptions with acp := 1 } : hacktv_t).acp ≠ 0
    ∧ ((applyTail { defaultOptions with acp := 1 }
          { plainMode VidType.VID_RASTER_625 625 ColourMode.VID_PAL with acp := 1 }).videocrypt
          = none
        ∧ (applyTail { defaultOptions with acp := 1 }
          { plainMode VidType.VID_RASTER_625 625 ColourMode.VID_PAL with acp := 1 }).videocrypt2
          = none
        ∧ (applyTail { defaultOptions with acp := 1 }
          { plainMode VidType.VID_RASTER_625 625 ColourMode.VID_PAL with acp := 1 }).videocrypts
          = none
        ∧ (applyTail { defaultOptions with acp := 1 }
          { plainMode VidType.VID_RASTER_625 625 ColourMode.VID_PAL with acp := 1 }).syster = 0)
    ∧ (({ defaultOptions with acp := 1 } : hacktv_t).videocrypt = none
        ∧ ({ defaultOptions with acp := 1 } : hacktv_t).videocrypt2 = none
        ∧ ({ defaultOptions with acp := 1 } : hacktv_t).videocrypts = none
        ∧ ({ defaultOptions with acp := 1 } : hacktv_t).syster = 0) :=
  acp_excludes_line_scrambling { defaultOptions with acp := 1 }
    (plainMode VidType.VID_RASTER_625 625 ColourMode.VID_PAL)
    (applyTail { defaultOptions with acp := 1 }
      { plainMode VidType.VID_RASTER_625 625 ColourMode.VID_PAL with acp := 1 })
    rfl
    (by
      norm_num [configure, checkScrambling, applyOverrides, applyDeviation, applyGamma,
        applyInterlace, applyNoColour, applyNoAudio, applyNoNicam, applyA2Stereo,
        applyScrambleAndLevel, checkTeletext, checkWss, checkVideocrypt, checkVideocrypt2,
        checkVideocrypts, checkSyster, checkEurocrypt, checkAcp, checkVits, checkVitc,
        applyMacAndFilter, checkSis, applyTail, defaultOptions, plainMode, bind, Except.bind])
    rfl

/-- C17: for every option set that `start` does not reject, starting from a
mode configuration with no scrambling enabled: when videocrypts is set,
videocrypt and videocrypt2 are unset, and when syster is set, videocrypt,
videocrypt2 and videocrypts are all unset, in the configuration handed on and
in the options alike. -/
theorem scrambling_modes_not_combined (s : hacktv_t) (conf r : vid_config_t)
    (h1 : conf.videocrypt = none) (h2 : conf.videocrypt2 = none)
    (h3 : conf.videocrypts = none) (h4 : conf.syster = 0)
    (h : configure s conf = Except.ok r) :
    (r.videocrypts ≠ none → r.videocrypt = none ∧ r.videocrypt2 = none)
    ∧ (r.syster ≠ 0 → r.videocrypt = none ∧ r.videocrypt2 = none ∧ r.videocrypts = none)
    ∧ (s.videocrypts ≠ none → s.videocrypt = none ∧ s.videocrypt2 = none)
    ∧ (s.syster ≠ 0 → s.videocrypt = none ∧ s.videocrypt2 = none ∧ s.videocrypts = none) := by
  obtain ⟨before, after, hb, hs, ha⟩ := configure_ok s conf r h
  obtain ⟨_, _, _, e4, e5, e6, e7, _, _, _, f3, f4, _, _⟩ :=
    checkScrambling_ok s before after hs
  obtain ⟨_, _, _, a4, a5, a6, a7, _, _⟩ := ha
  obtain ⟨_, _, _, b4, b5, b6, b7, _, _⟩ := hb
  obtain ⟨_, _, o3, o4, o5, o6, _, _, _⟩ := applyOverrides_members s conf
  have c4 : before.videocrypt = none := b4.trans (o3.trans h1)
  have c5 : before.videocrypt2 = none := b5.trans (o4.trans h2)
  have c6 : before.videocrypts = none := b6.trans (o5.trans h3)
  have c7 : before.syster = 0 := b7.trans (o6.trans h4)
  have hvcs : ∀ hs : s.videocrypts.isSome, s.videocrypt = none ∧ s.videocrypt2 = none := f3
  have hsys : s.syster ≠ 0 → s.videocrypt = none ∧ s.videocrypt2 = none ∧ s.videocrypts = none := by
    intro hne
    obtain ⟨x1, x2, x3⟩ := f4 hne
    exact ⟨isSome_of_ite_eq_none _ _ (e4.symm.trans x1),
      isSome_of_ite_eq_none _ _ (e5.symm.trans x2), isSome_of_ite_eq_none _ _ (e6.symm.trans x3)⟩
  have rvc : r.videocrypt = s.videocrypt := by
    rw [a4, e4, c4]
    cases s.videocrypt <;> rfl
  have rvc2 : r.videocrypt2 = s.videocrypt2 := by
    rw [a5, e5, c5]
    cases s.videocrypt2 <;> rfl
  have rvcs : r.videocrypts = s.videocrypts := by
    rw [a6, e6, c6]
    cases s.videocrypts <;> rfl
  have rsys : r.syster ≠ 0 → s.syster ≠ 0 := by
    intro hne h0
    rw [a7, e7, if_neg (not_not.mpr h0), c7] at hne
    exact hne rfl
  have svcs : s.videocrypts ≠ none → s.videocrypt = none ∧ s.videocrypt2 = none := by
    intro hne
    exact hvcs (Option.isSome_iff_ne_none.mpr hne)
  refine ⟨?_, ?_, svcs, hsys⟩
  · intro hne
    rw [rvcs] at hne
    rw [rvc, rvc2]
    exact svcs hne
  · intro hne
    rw [rvc, rvc2, rvcs]
    exact hsys (rsys hne)

/-- C17 (witness): `--syster` alone on a 625-line PAL mode. -/
theorem scrambling_modes_not_combined_witness :
    (({ defaultOptions with syster := 1 } : hacktv_t).videocrypts ≠ none →
        ({ defaultOptions with syster := 1 } : hacktv_t).videocrypt = none
        ∧ ({ defaultOptions with syster := 1 } : hacktv_t).videocrypt2 = none)
    ∧ (({ defaultOptions with syster := 1 } : hacktv_t).syster ≠ 0 →
        ({ defaultOptions with syster := 1 } : hacktv_t).videocrypt = none
        ∧ ({ defaultOptions with syster := 1 } : hacktv_t).videocrypt2 = none
        ∧ ({ defaultOptions with syster := 1 } : hacktv_t).videocrypts = none) :=
  (scrambling_modes_not_combined { defaultOptions with syster := 1 }
    (plainMode VidType.VID_RASTER_625 625 ColourMode.VID_PAL)
    (applyTail { defaultOptions with syster := 1 }
      { plainMode VidType.VID_RASTER_625 625 ColourMode.VID_PAL with syster := 1 })
    rfl rfl rfl rfl
    (by
      norm_num [configure, checkScrambling, applyOverrides, applyDeviation, applyGamma,
        applyInterlace, applyNoColour, applyNoAudio, applyNoNicam, applyA2Stereo,
        applyScrambleAndLevel, checkTeletext, checkWss, checkVideocrypt, checkVideocrypt2,
        checkVideocrypts, checkSyster, checkEurocrypt, checkAcp, checkVits, checkVitc,
        applyMacAndFilter, checkSis, applyTail, defaultOptions, plainMode, bind,
        Except.bind])).2.2

theorem checkVideocrypt2_error_together (s : hacktv_t) (c : vid_config_t)
    (h : checkVideocrypt2 s c = Except.error
      "Videocrypt I and II cannot be used together except in free-access mode.") :
    s.videocrypt.isSome ∧ s.videocrypt2.isSome
    ∧ ¬ (s.videocrypt = some "free" ∧ s.videocrypt2 = some "free") := by
  unfold checkVideocrypt2 at h
  split_ifs at h with h1 h2 h3
  · simp at h
  · exact ⟨h3.1, h1, h3.2⟩

theorem configure_error_together (s : hacktv_t) (conf : vid_config_t)
    (h : configure s conf = Except.error
      "Videocrypt I and II cannot be used together except in free-access mode.") :
    s.videocrypt.isSome ∧ s.videocrypt2.isSome
    ∧ ¬ (s.videocrypt = some "free" ∧ s.videocrypt2 = some "free") := by
  unfold configure checkScrambling at h
  rcases (bind_eq_error _ _ _).mp h with h | ⟨c6, _, h⟩
  · rcases (bind_eq_error _ _ _).mp h with h | ⟨c5, _, h⟩
    · rcases (bind_eq_error _ _ _).mp h with h | ⟨c4, _, h⟩
      · rcases (bind_eq_error _ _ _).mp h with h | ⟨c3, _, h⟩
        · rcases (bind_eq_error _ _ _).mp h with h | ⟨c2, _, h⟩
          · rcases (bind_eq_error _ _ _).mp h with h | ⟨c1, _, h⟩
            · unfold checkTeletext at h
              split_ifs at h
              simp at h
            · unfold checkWss at h
              split_ifs at h
              simp at h
          · rcases (bind_eq_error _ _ _).mp h with h | ⟨d5, _, h⟩
            · rcases (bind_eq_error _ _ _).mp h with h | ⟨d4, _, h⟩
              · rcases (bind_eq_error _ _ _).mp h with h | ⟨d3, _, h⟩
                · rcases (bind_eq_error _ _ _).mp h with h | ⟨d2, _, h⟩
                  · rcases (bind_eq_error _ _ _).mp h with h | ⟨d1, _, h⟩
                    · unfold checkVideocrypt at h
                      split_ifs at h
                      simp at h
                    · exact checkVideocrypt2_error_together s d1 h
                  · unfold checkVideocrypts at h
                    split_ifs at h <;> simp at h
                · unfold checkSyster at h
                  split_ifs at h <;> simp at h
              · unfold checkEurocrypt at h
                split_ifs at h
                simp at h
            · unfold checkAcp at h
              split_ifs at h <;> simp at h
        · unfold checkVits at h
          split_ifs at h
          simp at h
      · unfold checkVitc at h
        split_ifs at h
        simp at h
    · unfold checkSis at h
      split_ifs at h
      simp at h
  · simp at h

/-- C18: when both `--videocrypt` and `--videocrypt2` are given, `start` rejects
the configuration unless both values are exactly the string "free"; and the
check for the two together rejects only when both are given and not both are
"free", so it never rejects when only one of the two is given. -/
theorem videocrypt_1_and_2_only_in_free_access (s : hacktv_t) (conf : vid_config_t) :
    (∀ r : vid_config_t, s.videocrypt ≠ none → s.videocrypt2 ≠ none →
        configure s conf = Except.ok r →
        s.videocrypt = some "free" ∧ s.videocrypt2 = some "free")
    ∧ (s.videocrypt ≠ none → s.videocrypt2 ≠ none →
        ¬ (s.videocrypt = some "free" ∧ s.videocrypt2 = some "free") →
        ∃ message : String, configure s conf = Except.error message)
    ∧ (configure s conf = Except.error
          "Videocrypt I and II cannot be used together except in free-access mode." →
        s.videocrypt ≠ none ∧ s.videocrypt2 ≠ none
        ∧ ¬ (s.videocrypt = some "free" ∧ s.videocrypt2 = some "free"))
    ∧ (s.videocrypt = none ∨ s.videocrypt2 = none →
        configure s conf ≠ Except.error
          "Videocrypt I and II cannot be used together except in free-access mode.") := by
  have hok : ∀ r : vid_config_t, s.videocrypt ≠ none → s.videocrypt2 ≠ none →
      configure s conf = Except.ok r →
      s.videocrypt = some "free" ∧ s.videocrypt2 = some "free" := by
    intro r hv1 hv2 h
    obtain ⟨before, after, _, hs, _⟩ := configure_ok s conf r h
    exact (checkScrambling_ok s before after hs).2.2.2.2.2.2.2.2.2.1
      (Option.isSome_iff_ne_none.mpr hv2) (Option.isSome_iff_ne_none.mpr hv1)
  have herr : configure s conf = Except.error
        "Videocrypt I and II cannot be used together except in free-access mode." →
      s.videocrypt ≠ none ∧ s.videocrypt2 ≠ none
      ∧ ¬ (s.videocrypt = some "free" ∧ s.videocrypt2 = some "free") := by
    intro h
    obtain ⟨x1, x2, x3⟩ := configure_error_together s conf h
    exact ⟨Option.isSome_iff_ne_none.mp x1, Option.isSome_iff_ne_none.mp x2, x3⟩
  refine ⟨hok, ?_, herr, ?_⟩
  · intro hv1 hv2 hfree
    cases hc : configure s conf with
    | error message => exact ⟨message, rfl⟩
    | ok r => exact absurd (hok r hv1 hv2 hc) hfree
  · rintro (h0 | h0) h
    · exact (herr h).1 h0
    · exact (herr h).2.1 h0

/-- C18 (witness): `--videocrypt free --videocrypt2 conditional` on a 625-line
PAL mode is rejected. -/
theorem videocrypt_1_and_2_only_in_free_access_witness :
    ∃ message : String,
      configure { defaultOptions with videocrypt := some "free", videocrypt2 := some "conditional" }
        (plainMode VidType.VID_RASTER_625 625 ColourMode.VID_PAL) = Except.error message :=
  (videocrypt_1_and_2_only_in_free_access
    { defaultOptions with videocrypt := some "free", videocrypt2 := some "conditional" }
    (plainMode VidType.VID_RASTER_625 625 ColourMode.VID_PAL)).2.1
    (by simp) (by simp) (by simp)

/-! ## The `-o` option -/

theorem strchr_found (ch : Char) (p x : List Char) (i : Nat) (hch : ch ∉ p) (hnul : NUL ∉ p)
    (hne : ch ≠ NUL) : strchr ch (p ++ ch :: x) i = some (i + p.length) := by
  induction p generalizing i with
  | nil => simp [strchr, hne]
  | cons a t ih =>
    have ha : a ≠ NUL := fun h => hnul (by simp [h])
    have hac : a ≠ ch := fun h => hch (by simp [h])
    simp only [List.cons_append, strchr, ha, hac, if_false, List.append_eq]
    rw [ih (i + 1) (fun h => hch (List.mem_cons_of_mem _ h))
      (fun h => hnul (List.mem_cons_of_mem _ h))]
    simp only [List.length_cons]
    congr 1
    omega

theorem strchr_none (ch : Char) (p x : List Char) (i : Nat) (hch : ch ∉ p) :
    strchr ch (p ++ NUL :: x) i = none := by
  induction p generalizing i with
  | nil => simp [strchr]
  | cons a t ih =>
    have hac : a ≠ ch := fun h => hch (by simp [h])
    simp only [List.cons_append, strchr, hac, if_false, List.append_eq]
    split_ifs
    · rfl
    · exact ih (i + 1) (fun h => hch (List.mem_cons_of_mem _ h))

theorem set_append_cons (p x : List Char) (a b : Char) :
    (p ++ a :: x).set p.length b = p ++ b :: x := by
  induction p with
  | nil => rfl
  | cons c t ih => simp [List.set, ih]

theorem cstring_zero (p x : List Char) (hnul : NUL ∉ p) : cstring (p ++ NUL :: x) 0 = p := by
  unfold cstring
  rw [List.drop_zero]
  induction p with
  | nil => simp [List.takeWhile]
  | cons a t ih =>
    have ha : a ≠ NUL := fun h => hnul (by simp [h])
    simp only [List.cons_append, List.takeWhile_cons, ha, ne_eq, not_false_eq_true,
      decide_True, if_true]
    rw [ih (fun h => hnul (List.mem_cons_of_mem _ h))]

theorem cstring_after (p x y : List Char) (a : Char) (hnul : NUL ∉ x) :
    cstring (p ++ a :: (x ++ NUL :: y)) (p.length + 1) = x := by
  have h := cstring_zero x y hnul
  unfold cstring at h ⊢
  rw [List.drop_zero] at h
  have hd : (p ++ a :: (x ++ NUL :: y)).drop (p.length + 1) = x ++ NUL :: y := by
    rw [show p ++ a :: (x ++ NUL :: y) = (p ++ [a]) ++ (x ++ NUL :: y) by simp]
    exact List.drop_left' (by simp)
  rw [hd, h]

theorem split_at_first (ch : Char) (arg : List Char) (h : ch ∈ arg) :
    ∃ p rest : List Char, arg = p ++ ch :: rest ∧ ch ∉ p := by
  induction arg with
  | nil => simp at h
  | cons a t ih =>
    by_cases ha : a = ch
    · exact ⟨[], t, by simp [ha], by simp⟩
    · have ht : ch ∈ t := by
        rcases List.mem_cons.mp h with h1 | h1
        · exact absurd h1.symm ha
        · exact h1
      obtain ⟨p, rest, hp, hnp⟩ := ih ht
      refine ⟨a :: p, rest, by simp [hp], ?_⟩
      intro hmem
      rcases List.mem_cons.mp hmem with h1 | h1
      · exact ha h1.symm
      · exact hnp h1

theorem outputCase_colon (p rest : List Char) (hcol : ':' ∉ p) (hnul : NUL ∉ p) :
    outputCase (p ++ ':' :: (rest ++ [NUL]))
      = if p = "file".toList then
          ⟨p ++ NUL :: (rest ++ [NUL]), "file", some (p.length + 1)⟩
        else if p = "hackrf".toList then
          ⟨p ++ NUL :: (rest ++ [NUL]), "hackrf", some (p.length + 1)⟩
        else if p = "soapysdr".toList then
          ⟨p ++ NUL :: (rest ++ [NUL]), "soapysdr", some (p.length + 1)⟩
        else if p = "fl2k".toList then
          ⟨p ++ NUL :: (rest ++ [NUL]), "fl2k", some (p.length + 1)⟩
        else ⟨p ++ ':' :: (rest ++ [NUL]), "file", some 0⟩ := by
  have h1 : strchr ':' (p ++ ':' :: (rest ++ [NUL])) 0 = some p.length := by
    rw [strchr_found ':' p _ 0 hcol hnul (by decide), Nat.zero_add]
  unfold outputCase
  rw [h1]
  simp only [Option.map_some', set_append_cons, cstring_zero _ _ hnul, Nat.add_sub_cancel]

theorem outputCase_plain (arg : List Char) (hcol : ':' ∉ arg) (hnul : NUL ∉ arg) :
    outputCase (arg ++ [NUL])
      = if arg = "file".toList then ⟨arg ++ [NUL], "file", none⟩
        else if arg = "hackrf".toList then ⟨arg ++ [NUL], "hackrf", none⟩
        else if arg = "soapysdr".toList then ⟨arg ++ [NUL], "soapysdr", none⟩
        else if arg = "fl2k".toList then ⟨arg ++ [NUL], "fl2k", none⟩
        else ⟨arg ++ [NUL], "file", some 0⟩ := by
  have h1 : strchr ':' (arg ++ [NUL]) 0 = none := strchr_none ':' arg [] 0 hcol
  unfold outputCase
  rw [h1]
  simp only [Option.map_none', cstring_zero _ _ hnul]

theorem known_no_colon (T : String) (hT : T ∈ knownOutputTypes) :
    ':' ∉ T.toList ∧ NUL ∉ T.toList := by
  simp only [knownOutputTypes, List.mem_cons, List.mem_singleton, List.not_mem_nil,
    or_false] at hT
  rcases hT with rfl | rfl | rfl | rfl <;> decide

theorem outputCase_known_colon (T : String) (hT : T ∈ knownOutputTypes) (rest : List Char) :
    outputCase (T.toList ++ ':' :: (rest ++ [NUL]))
      = ⟨T.toList ++ NUL :: (rest ++ [NUL]), T, some (T.toList.length + 1)⟩ := by
  rw [outputCase_colon _ _ (known_no_colon T hT).1 (known_no_colon T hT).2]
  simp only [knownOutputTypes, List.mem_cons, List.mem_singleton, List.not_mem_nil,
    or_false] at hT
  rcases hT with rfl | rfl | rfl | rfl <;> simp

theorem outputCase_known_plain (T : String) (hT : T ∈ knownOutputTypes) :
    outputCase (T.toList ++ [NUL]) = ⟨T.toList ++ [NUL], T, none⟩ := by
  rw [outputCase_plain _ (known_no_colon T hT).1 (known_no_colon T hT).2]
  simp only [knownOutputTypes, List.mem_cons, List.mem_singleton, List.not_mem_nil,
    or_false] at hT
  rcases hT with rfl | rfl | rfl | rfl <;> simp

theorem toList_mem_known (p : List Char)
    (h : p = "file".toList ∨ p = "hackrf".toList ∨ p = "soapysdr".toList ∨ p = "fl2k".toList) :
    ∃ T ∈ knownOutputTypes, p = T.toList := by
  rcases h with h | h | h | h
  · exact ⟨"file", by simp [knownOutputTypes], h⟩
  · exact ⟨"hackrf", by simp [knownOutputTypes], h⟩
  · exact ⟨"soapysdr", by simp [knownOutputTypes], h⟩
  · exact ⟨"fl2k", by simp [knownOutputTypes], h⟩

/-- C19: for every `-o` argument `arg` (a C string, so without a terminator
inside): if `arg` is a known type `T` (file, hackrf, soapysdr, fl2k) then
`output_type` is `T` and `output` is `NULL`; if it is `T:rest` then `output_type`
is `T` and `output` is `rest`; otherwise `output_type` is "file", `output` is the
whole of `arg`, and the buffer is as it was given, the colon put back. -/
theorem output_option_split (arg : List Char) (hnul : NUL ∉ arg) :
    (∀ T ∈ knownOutputTypes, arg = T.toList →
        (outputCase (arg ++ [NUL])).output_type = T
        ∧ (outputCase (arg ++ [NUL])).output = none)
    ∧ (∀ T ∈ knownOutputTypes, ∀ rest : List Char, arg = T.toList ++ ':' :: rest →
        (outputCase (arg ++ [NUL])).output_type = T
        ∧ (outputCase (arg ++ [NUL])).outputString = some rest)
    ∧ ((∀ T ∈ knownOutputTypes,
          arg ≠ T.toList ∧ ∀ rest : List Char, arg ≠ T.toList ++ ':' :: rest) →
        (outputCase (arg ++ [NUL])).output_type = "file"
        ∧ (outputCase (arg ++ [NUL])).outputString = some arg
        ∧ (outputCase (arg ++ [NUL])).optarg = arg ++ [NUL]) := by
  refine ⟨?_, ?_, ?_⟩
  · intro T hT harg
    subst harg
    rw [outputCase_known_plain T hT]
    exact ⟨rfl, rfl⟩
  · intro T hT rest harg
    subst harg
    have hrest : NUL ∉ rest := fun h => hnul (by simp [h])
    rw [show T.toList ++ ':' :: rest ++ [NUL] = T.toList ++ ':' :: (rest ++ [NUL]) by simp,
      outputCase_known_colon T hT]
    refine ⟨rfl, ?_⟩
    simp only [OutputOption.outputString, Option.map_some']
    rw [cstring_after _ _ [] _ hrest]
  · intro hother
    by_cases hcol : ':' ∈ arg
    · obtain ⟨p, rest, harg, hp⟩ := split_at_first ':' arg hcol
      subst harg
      have hpnul : NUL ∉ p := fun h => hnul (by simp [h])
      have hnot : ¬ (p = "file".toList ∨ p = "hackrf".toList ∨ p = "soapysdr".toList
          ∨ p = "fl2k".toList) := by
        intro h
        obtain ⟨T, hT, hpT⟩ := toList_mem_known p h
        exact (hother T hT).2 rest (by rw [hpT])
      push_neg at hnot
      obtain ⟨n1, n2, n3, n4⟩ := hnot
      rw [show p ++ ':' :: rest ++ [NUL] = p ++ ':' :: (rest ++ [NUL]) by simp,
        outputCase_colon p rest hp hpnul, if_neg n1, if_neg n2, if_neg n3, if_neg n4]
      refine ⟨rfl, ?_, rfl⟩
      simp only [OutputOption.outputString, Option.map_some']
      rw [show p ++ ':' :: (rest ++ [NUL]) = (p ++ ':' :: rest) ++ NUL :: [] by simp,
        cstring_zero _ _ hnul]
    · have hnot : ¬ (arg = "file".toList ∨ arg = "hackrf".toList ∨ arg = "soapysdr".toList
          ∨ arg = "fl2k".toList) := by
        intro h
        obtain ⟨T, hT, hpT⟩ := toList_mem_known arg h
        exact (hother T hT).1 hpT
      push_neg at hnot
      obtain ⟨n1, n2, n3, n4⟩ := hnot
      rw [outputCase_plain arg hcol hnul, if_neg n1, if_neg n2, if_neg n3, if_neg n4]
      refine ⟨rfl, ?_, rfl⟩
      simp only [OutputOption.outputString, Option.map_some']
      rw [cstring_zero _ _ hnul]

/-- C19 (witness): the argument `hackrf:0001`. -/
theorem output_option_split_witness :
    (outputCase ("hackrf:0001".toList ++ [NUL])).output_type = "hackrf"
    ∧ (outputCase ("hackrf:0001".toList ++ [NUL])).outputString = some "0001".toList :=
  (output_option_split "hackrf:0001".toList (by decide)).2.1 "hackrf"
    (by simp [knownOutputTypes]) "0001".toList (by decide)

/-! ## `_fputs_json` and `_list_modes` -/

theorem jsonStringStep_escaped (c : Char) (rest : List Char)
    (hc : 32 ≤ c.toNat ∨ c = Char.ofNat 8 ∨ c = Char.ofNat 12 ∨ c = '\n' ∨ c = '\r' ∨ c = '\t') :
    (_fputs_json [c] ++ rest).foldl jsonStringStep JsonStringState.plain
      = rest.foldl jsonStringStep JsonStringState.plain := by
  by_cases h1 : c = '"'
  · subst h1; rfl
  by_cases h2 : c = '\\'
  · subst h2; rfl
  by_cases h3 : c = Char.ofNat 8
  · subst h3; rfl
  by_cases h4 : c = Char.ofNat 12
  · subst h4; rfl
  by_cases h5 : c = '\n'
  · subst h5; rfl
  by_cases h6 : c = '\r'
  · subst h6; rfl
  by_cases h7 : c = '\t'
  · subst h7; rfl
  have h32 : ¬ c.toNat < 32 := by
    rcases hc with h | h | h | h | h | h
    · omega
    · exact absurd h h3
    · exact absurd h h4
    · exact absurd h h5
    · exact absurd h h6
    · exact absurd h h7
  simp [_fputs_json, jsonEscape, h1, h2, h3, h4, h5, h6, h7, jsonStringStep, h32]

theorem fputs_json_cons (c : Char) (str : List Char) :
    _fputs_json (c :: str) = _fputs_json [c] ++ _fputs_json str := by
  simp [_fputs_json]

theorem fputs_json_valid (str : List Char)
    (h : ∀ c ∈ str,
      32 ≤ c.toNat ∨ c = Char.ofNat 8 ∨ c = Char.ofNat 12 ∨ c = '\n' ∨ c = '\r' ∨ c = '\t') :
    validJsonStringBody (_fputs_json str) = true := by
  unfold validJsonStringBody
  rw [decide_eq_true_eq]
  induction str with
  | nil => rfl
  | cons c t ih =>
    rw [fputs_json_cons, jsonStringStep_escaped c _ (h c (List.mem_cons_self _ _))]
    exact ih (fun x hx => h x (List.mem_cons_of_mem _ hx))

/-! ## The `--shuffle` pass -/

theorem cons_set_perm {α : Type} (t : List α) (k : Nat) (h : k < t.length) (a : α) :
    (t[k] :: t.set k a).Perm (a :: t) := by
  induction t generalizing k with
  | nil => simp at h
  | cons b u ih =>
    cases k with
    | zero => exact List.Perm.swap _ _ _
    | succ n =>
      have hn : n < u.length := by simpa using h
      simp only [List.getElem_cons_succ, List.set_cons_succ]
      exact (List.Perm.swap _ _ _).trans
        (((ih n hn).cons b).trans (List.Perm.swap _ _ _))

theorem swap_perm {α : Type} (l : List α) (i j : Nat) (hi : i < l.length) (hj : j < l.length) :
    ((l.set i l[j]).set j l[i]).Perm l := by
  induction l generalizing i j with
  | nil => simp at hi
  | cons a t ih =>
    cases i with
    | zero =>
      cases j with
      | zero => simp
      | succ k =>
        have hk : k < t.length := by simpa using hj
        simp only [List.getElem_cons_succ, List.set_cons_zero, List.set_cons_succ,
          List.getElem_cons_zero]
        exact cons_set_perm t k hk a
    | succ n =>
      have hn : n < t.length := by simpa using hi
      cases j with
      | zero =>
        simp only [List.getElem_cons_succ, List.set_cons_zero, List.set_cons_succ,
          List.getElem_cons_zero]
        exact cons_set_perm t n hn a
      | succ k =>
        have hk : k < t.length := by simpa using hj
        simp only [List.getElem_cons_succ, List.set_cons_succ]
        exact (ih n k hn hk).cons a

theorem swap_take {α : Type} (l : List α) (c j : Nat) (x y : α) (hj : c ≤ j) :
    ((l.set c x).set j y).take c = l.take c := by
  apply List.ext_getElem?
  intro i
  rw [List.getElem?_take, List.getElem?_take]
  split
  · rw [List.getElem?_set_ne (by omega), List.getElem?_set_ne (by omega)]
  · rfl

theorem shuffleLoop_spec {α : Type} (rand : Nat → Nat) (optind argc fuel : Nat) :
    ∀ (c calls : Nat) (argv : List α), argv.length = argc → argc ≤ fuel + c → 1 ≤ fuel →
      ∃ result : List α,
        shuffleLoop rand optind argc fuel c calls argv = some result
        ∧ result.Perm argv ∧ result.take c = argv.take c := by
  induction fuel with
  | zero => intro c calls argv _ _ h1; omega
  | succ n ih =>
    intro c calls argv hlen hfuel _
    unfold shuffleLoop
    by_cases hc : c < argc - 1
    · rw [if_pos hc]
      have hm : ¬ (argc - c - (if c = optind then 1 else 0) = 0) := by
        split_ifs <;> omega
      rw [if_neg hm]
      have hl : c + rand calls % (argc - c - (if c = optind then 1 else 0)) < argv.length := by
        have := Nat.mod_lt (rand calls) (Nat.pos_of_ne_zero hm)
        split_ifs at this ⊢ <;> omega
      have hcl : c < argv.length := by omega
      rw [List.getElem?_eq_getElem hcl, List.getElem?_eq_getElem hl]
      simp only []
      obtain ⟨result, hres, hperm, htake⟩ := ih (c + 1) (calls + 1)
        ((argv.set c argv[c + rand calls % (argc - c - (if c = optind then 1 else 0))]).set
          (c + rand calls % (argc - c - (if c = optind then 1 else 0))) argv[c])
        (by simp [hlen]) (by omega) (by omega)
      refine ⟨result, hres, hperm.trans (swap_perm argv _ _ hcl hl), ?_⟩
      have h2 := congrArg (List.take c) htake
      rw [List.take_take, List.take_take, Nat.min_eq_left (Nat.le_succ c),
        swap_take argv c _ _ _ (Nat.le_add_right _ _)] at h2
      exact h2
    · rw [if_neg hc]
      exact ⟨argv, rfl, List.Perm.refl _, rfl⟩


theorem shufflePass_first {α : Type} (rand : Nat → Nat) (calls optind : Nat) (argv : List α)
    (h2 : optind + 2 ≤ argv.length) :
    ∃ result : List α,
      shufflePass rand calls optind argv = some result
      ∧ result[optind]? = argv[optind + rand calls % (argv.length - optind - 1)]? := by
  have hm : ¬ (argv.length - optind - 1 = 0) := by omega
  have hl : optind + rand calls % (argv.length - optind - 1) < argv.length := by
    have := Nat.mod_lt (rand calls) (Nat.pos_of_ne_zero hm)
    omega
  have hc : optind < argv.length := by omega
  obtain ⟨result, hres, _, htake⟩ := shuffleLoop_spec rand optind argv.length argv.length
    (optind + 1) (calls + 1)
    ((argv.set optind argv[optind + rand calls % (argv.length - optind - 1)]).set
      (optind + rand calls % (argv.length - optind - 1)) argv[optind])
    (by simp) (by omega) (by omega)
  refine ⟨result, ?_, ?_⟩
  · unfold shufflePass shuffleLoop
    rw [if_pos (by omega)]
    simp only [if_true]
    rw [if_neg hm, List.getElem?_eq_getElem hc, List.getElem?_eq_getElem hl]
    exact hres
  · have h1 : result[optind]? = (result.take (optind + 1))[optind]? := by
      rw [List.getElem?_take_of_lt (Nat.lt_succ_self _)]
    have key : ∀ (l : Nat) (hlt : l < argv.length),
        ((argv.set optind argv[l]).set l argv[optind])[optind]? = some argv[l] := by
      intro l hlt
      by_cases heq : l = optind
      · subst heq
        rw [List.getElem?_set_eq_of_lt _ (by simpa using hlt)]
      · rw [List.getElem?_set_ne heq, List.getElem?_set_eq_of_lt _ hc]
    rw [h1, htake, List.getElem?_take_of_lt (Nat.lt_succ_self _), List.getElem?_eq_getElem hl]
    exact key _ hl

/-- C21: for every `argv`, every start `optind` of the input list and every
sequence of `rand()` values, the `--shuffle` pass ends with a result: each
modulus it divides by is not zero and each index it swaps lies inside the input
list.  The result is a permutation of `argv` that leaves the entries before
`optind` where they were, so the input list is permuted.  With at least two
inputs the entry put first comes from a position before the last one; the
entries of `argv` being distinct, it is not the entry that was last. -/
theorem shuffle_pass_permutes {α : Type} (rand : Nat → Nat) (calls optind : Nat)
    (argv : List α) :
    (∀ c r : Nat, optind ≤ c → c < argv.length - 1 →
        argv.length - c - (if c = optind then 1 else 0) ≠ 0
        ∧ optind ≤ c + r % (argv.length - c - (if c = optind then 1 else 0))
        ∧ c + r % (argv.length - c - (if c = optind then 1 else 0)) < argv.length)
    ∧ ∃ result : List α,
        shufflePass rand calls optind argv = some result
        ∧ result.Perm argv
        ∧ result.take optind = argv.take optind
        ∧ (result.drop optind).Perm (argv.drop optind)
        ∧ (optind + 2 ≤ argv.length →
            ∃ j : Nat, optind ≤ j ∧ j + 1 < argv.length ∧ result[optind]? = argv[j]?)
        ∧ (optind + 2 ≤ argv.length → argv.Nodup →
            result[optind]? ≠ argv[argv.length - 1]?) := by
  constructor
  · intro c r hc1 hc2
    have hm : argv.length - c - (if c = optind then 1 else 0) ≠ 0 := by
      split_ifs <;> omega
    have := Nat.mod_lt r (Nat.pos_of_ne_zero hm)
    refine ⟨hm, by omega, ?_⟩
    split_ifs at this ⊢ <;> omega
  · obtain ⟨result, hres, hperm, htake⟩ := shuffleLoop_spec rand optind argv.length
      (argv.length + 1) optind calls argv rfl (by omega) (by omega)
    have hfirst : optind + 2 ≤ argv.length →
        ∃ j : Nat, optind ≤ j ∧ j + 1 < argv.length ∧ result[optind]? = argv[j]? := by
      intro h2
      obtain ⟨result2, hres2, hget⟩ := shufflePass_first rand calls optind argv h2
      have hsame : result2 = result := by
        unfold shufflePass at hres2
        rw [hres] at hres2
        exact (Option.some.inj hres2).symm
      subst hsame
      have hmod := Nat.mod_lt (rand calls) (show 0 < argv.length - optind - 1 by omega)
      exact ⟨_, Nat.le_add_right _ _, by omega, hget⟩
    refine ⟨result, hres, hperm, htake, ?_, hfirst, ?_⟩
    · have h := hperm
      rw [← List.take_append_drop optind result, ← List.take_append_drop optind argv,
        htake] at h
      exact (List.perm_append_left_iff _).mp h
    · intro h2 hnodup
      obtain ⟨j, _, hj, hget⟩ := hfirst h2
      rw [hget]
      exact (List.nodup_iff_getElem?_ne_getElem?.mp hnodup) j (argv.length - 1) (by omega)
        (by omega)

/-- C21 (witness): three inputs after the program name, `rand()` always 7. -/
theorem shuffle_pass_permutes_witness :
    ∃ result : List String,
      shufflePass (fun _ => 7) 0 1 ["hacktv", "a.mp4", "b.mp4", "c.mp4"] = some result
      ∧ result.Perm ["hacktv", "a.mp4", "b.mp4", "c.mp4"]
      ∧ result[1]? ≠ some "c.mp4" := by
  obtain ⟨result, hres, hperm, _, _, _, hlast⟩ :=
    (shuffle_pass_permutes (fun _ => 7) 0 1 ["hacktv", "a.mp4", "b.mp4", "c.mp4"]).2
  exact ⟨result, hres, hperm, hlast (by decide) (by decide)⟩

/-! ## `HackRfDevice::_rx_callback` -/

theorem tmod_two_ne_zero_iff (n : Int) : Int.tmod n 2 ≠ 0 ↔ n % 2 = 1 := by
  constructor
  · intro h
    rcases Int.emod_two_eq n with h0 | h1
    · exact absurd (Int.tmod_eq_zero_of_dvd (Int.dvd_of_emod_eq_zero h0)) h
    · exact h1
  · intro h1 h0
    have := Int.emod_eq_zero_of_dvd (Int.dvd_of_tmod_eq_zero h0)
    omega

/-- C22: `_rx_callback` returns -1 and makes no call of the data callback when
`valid_length` is odd; when it is even it returns 0 and, with a data callback
set, calls it exactly once, with the buffer of the transfer and that length,
and with none set makes no call. -/
theorem rx_callback_odd_length_rejected {κ : Type} (m_dataCallback : Option κ)
    (transfer : hackrf_transfer) :
    (Odd transfer.valid_length → _rx_callback m_dataCallback transfer = (-1, []))
    ∧ (Even transfer.valid_length →
        (_rx_callback m_dataCallback transfer).1 = 0
        ∧ (∀ callback : κ, m_dataCallback = some callback →
            (_rx_callback m_dataCallback transfer).2
              = [(callback, transfer.buffer, transfer.valid_length)])
        ∧ (m_dataCallback = none → (_rx_callback m_dataCallback transfer).2 = [])) := by
  constructor
  · intro hodd
    have h : Int.tmod transfer.valid_length 2 ≠ 0 :=
      (tmod_two_ne_zero_iff _).mpr (Int.odd_iff.mp hodd)
    unfold _rx_callback
    rw [if_pos h]
  · intro heven
    have h : ¬ Int.tmod transfer.valid_length 2 ≠ 0 := by
      intro hne
      have h1 := (tmod_two_ne_zero_iff _).mp hne
      have h0 := Int.even_iff.mp heven
      omega
    unfold _rx_callback
    rw [if_neg h]
    refine ⟨?_, ?_, ?_⟩
    · cases m_dataCallback <;> rfl
    · intro callback hcb
      subst hcb
      rfl
    · intro hnone
      subst hnone
      rfl

/-- C22 (witness): a transfer of 3 bytes is rejected, one of 4 bytes is passed
to the callback once. -/
theorem rx_callback_odd_length_rejected_witness :
    _rx_callback (some "callback") (hackrf_transfer.mk 4096 3) = (-1, [])
    ∧ (_rx_callback (some "callback") (hackrf_transfer.mk 4096 4)).2 = [("callback", 4096, 4)] :=
  ⟨(rx_callback_odd_length_rejected (some "callback") (hackrf_transfer.mk 4096 3)).1
      (by decide),
   ((rx_callback_odd_length_rejected (some "callback") (hackrf_transfer.mk 4096 4)).2
      (by decide)).2.1 "callback" rfl⟩

/-! ## `removeZerosFromBeginning` -/

theorem drop_cons_facts (s : List Char) (i : Nat) (c : Char) (t : List Char)
    (h : s.drop i = c :: t) : i < s.length ∧ s[i]? = some c ∧ s.drop (i + 1) = t := by
  have hlt : i < s.length := by
    by_contra hge
    rw [List.drop_of_length_le (not_lt.mp hge)] at h
    exact List.noConfusion h
  refine ⟨hlt, ?_, ?_⟩
  · have := List.getElem?_drop s i 0
    rw [h] at this
    simpa using this.symm
  · have := congrArg List.tail h
    simpa using this

theorem removeZerosLoop_spec (s : List Char) (fuel : Nat) :
    ∀ i : Nat, i + leadingZeros (s.drop i) < UINT32_SIZE → leadingZeros (s.drop i) < fuel →
      removeZerosLoop s fuel i = some (i + leadingZeros (s.drop i)) := by
  induction fuel with
  | zero => intro i _ h; omega
  | succ n ih =>
    intro i hsize hfuel
    unfold removeZerosLoop
    cases hd : s.drop i with
    | nil =>
      have hge : s.length ≤ i := List.drop_eq_nil_iff.mp hd
      rw [if_neg (fun h => absurd h.1 (not_lt.mpr hge))]
      simp [leadingZeros]
    | cons c t =>
      obtain ⟨hlt, hget, hdrop⟩ := drop_cons_facts s i c t hd
      rw [hd] at hsize hfuel
      by_cases hc : c = '0'
      · simp only [leadingZeros, hc, if_true] at hsize hfuel ⊢
        rw [hc] at hget
        rw [if_pos ⟨hlt, hget⟩, Nat.mod_eq_of_lt (by omega), ih (i + 1) (by rw [hdrop]; omega)
          (by rw [hdrop]; omega), hdrop]
        congr 1
        omega
      · have hne : ¬ (i < s.length ∧ s[i]? = some '0') := by
          rintro ⟨_, h0⟩
          rw [hget] at h0
          exact hc (Option.some.inj h0)
        rw [if_neg hne]
        simp [leadingZeros, hc]

theorem replicate_leadingZeros_append_drop (s : List Char) :
    s = List.replicate (leadingZeros s) '0' ++ s.drop (leadingZeros s) := by
  induction s with
  | nil => rfl
  | cons c t ih =>
    by_cases hc : c = '0'
    · simp only [leadingZeros, hc, if_true, List.replicate_succ, List.drop_succ_cons,
        List.cons_append]
      rw [← ih]
    · simp [leadingZeros, hc]

theorem head_drop_leadingZeros (s : List Char) :
    (s.drop (leadingZeros s)).head? ≠ some '0' := by
  induction s with
  | nil => simp [leadingZeros]
  | cons c t ih =>
    by_cases hc : c = '0'
    · simpa [leadingZeros, hc] using ih
    · simp [leadingZeros, hc]

theorem leadingZeros_eq_zero (r : List Char) (h : r.head? ≠ some '0') : leadingZeros r = 0 := by
  cases r with
  | nil => rfl
  | cons c t =>
    have hc : c ≠ '0' := fun h0 => h (by simp [h0])
    simp [leadingZeros, hc]

theorem leadingZeros_replicate_append (k : Nat) (r : List Char) (h : r.head? ≠ some '0') :
    leadingZeros (List.replicate k '0' ++ r) = k := by
  induction k with
  | zero => simpa using leadingZeros_eq_zero r h
  | succ n ih => simp [List.replicate_succ, leadingZeros, ih]

theorem removeZerosFromBeginning_eq (s : List Char) (fuel : Nat)
    (hsize : leadingZeros s < UINT32_SIZE) (hfuel : leadingZeros s < fuel) :
    removeZerosFromBeginning fuel s = some (s.drop (leadingZeros s)) := by
  unfold removeZerosFromBeginning
  rw [removeZerosLoop_spec s fuel 0 (by simpa using hsize) (by simpa using hfuel)]
  simp only [List.drop_zero, Nat.zero_add, Option.map_some']
  rw [List.take_of_length_le (by simp)]

/-- C23 (counterexample): on the string of `UINT32_SIZE` (2^32) characters `0`
the index wraps to 0 before it reaches the length, the loop never ends and
`removeZerosFromBeginning` returns nothing, whatever the fuel. -/
theorem removeZeros_wraps_on_long_zero_run :
    ¬ ∃ (fuel : Nat) (r : List Char),
        removeZerosFromBeginning fuel (List.replicate UINT32_SIZE '0') = some r := by
  have hloop : ∀ (fuel i : Nat), i < UINT32_SIZE →
      removeZerosLoop (List.replicate UINT32_SIZE '0') fuel i = none := by
    intro fuel
    induction fuel with
    | zero => intro i _; rfl
    | succ n ih =>
      intro i hi
      unfold removeZerosLoop
      rw [if_pos ⟨by rw [List.length_replicate]; exact hi,
        List.getElem?_replicate_of_lt hi⟩]
      exact ih _ (Nat.mod_lt _ (by unfold UINT32_SIZE; omega))
  rintro ⟨fuel, r, h⟩
  unfold removeZerosFromBeginning at h
  rw [hloop fuel 0 (by unfold UINT32_SIZE; omega)] at h
  exact Option.noConfusion h

/-- C23 (as amended): for every string `s` that starts with fewer than 2^32
characters `0`, and with enough fuel, `removeZerosFromBeginning s` is the
suffix `r` of `s` with `s` equal to `k` copies of `0` followed by `r` and `r`
empty or not starting with `0`; `r` and `k` are the only such pair; the
function gives `r` again on `r`, gives `s` when `s` does not start with `0`,
and gives the empty string when `s` consists of characters `0` only. -/
theorem removeZeros_strips_leading_zeros (s : List Char) (fuel : Nat)
    (hsize : leadingZeros s < UINT32_SIZE) (hfuel : leadingZeros s < fuel) :
    ∃ r : List Char,
      removeZerosFromBeginning fuel s = some r
      ∧ s = List.replicate (leadingZeros s) '0' ++ r
      ∧ r.head? ≠ some '0'
      ∧ (∀ (k : Nat) (other : List Char), s = List.replicate k '0' ++ other →
          other.head? ≠ some '0' → other = r ∧ k = leadingZeros s)
      ∧ removeZerosFromBeginning fuel r = some r
      ∧ (s.head? ≠ some '0' → r = s)
      ∧ ((∀ c ∈ s, c = '0') → r = []) := by
  have hsplit := replicate_leadingZeros_append_drop s
  have hhead := head_drop_leadingZeros s
  have huniq : ∀ (k : Nat) (other : List Char), s = List.replicate k '0' ++ other →
      other.head? ≠ some '0' → other = s.drop (leadingZeros s) ∧ k = leadingZeros s := by
    intro k other hs hother
    have hk : leadingZeros s = k := by
      rw [hs]
      exact leadingZeros_replicate_append k other hother
    refine ⟨?_, hk.symm⟩
    rw [hk]
    conv_rhs => rw [hs]
    rw [List.drop_left' (by simp)]
  refine ⟨s.drop (leadingZeros s), removeZerosFromBeginning_eq s fuel hsize hfuel, hsplit,
    hhead, huniq, ?_, ?_, ?_⟩
  · have h0 := leadingZeros_eq_zero _ hhead
    have := removeZerosFromBeginning_eq (s.drop (leadingZeros s)) fuel
      (by rw [h0]; unfold UINT32_SIZE; omega) (by omega)
    rw [h0, List.drop_zero] at this
    exact this
  · intro hs
    rw [leadingZeros_eq_zero s hs, List.drop_zero]
  · intro hall
    have hr : ∀ c ∈ s.drop (leadingZeros s), c = '0' := fun c hc =>
      hall c (List.mem_of_mem_drop hc)
    cases hd : s.drop (leadingZeros s) with
    | nil => rfl
    | cons c t =>
      exfalso
      rw [hd] at hhead hr
      exact hhead (by simp [hr c (List.mem_cons_self _ _)])

/-- C23 (witness): the serial number `0000a1b0`. -/
theorem removeZeros_strips_leading_zeros_witness :
    ∃ r : List Char,
      removeZerosFromBeginning 9 "0000a1b0".toList = some r
      ∧ "0000a1b0".toList = List.replicate (leadingZeros "0000a1b0".toList) '0' ++ r
      ∧ r.head? ≠ some '0' := by
  obtain ⟨r, h1, h2, h3, _⟩ := removeZeros_strips_leading_zeros "0000a1b0".toList 9
    (by decide) (by decide)
  exact ⟨r, h1, h2, h3⟩

end HackTv
